import Mathlib

/-!
Verification development for the VoltTrack offline-first sync engine.

The definitions below are a shallow embedding of the Python sources:
  * `src/src/database/local_database.py`  (class `LocalDatabase`)
  * `src/src/core/sync_manager.py`        (class `SyncManager`)
  * `src/src/database/direct_appwrite_service.py` (class `DirectAppwriteService`)

SQLite tables are modelled as Lean lists of rows (insertion order), `REAL`
columns as `ℚ`, `TEXT` columns as `String` (SQLite's `<` on `TEXT` is the
byte-wise order, modelled by `String.lt`).  Python `datetime` values are
modelled by the `DT` structure, and `datetime.strptime` by a token-list
interpreter with greedy bounded digit fields plus calendar validation,
mirroring CPython's `_strptime` regexes for the seven formats the code uses.
Nondeterministic inputs (`datetime.now()`, `ID.unique()`) are passed as
explicit arguments.
-/

namespace VoltTrack

/-- A naive `datetime.datetime` value (all seven formats in the source parse
to naive datetimes: the literal `+00:00` suffixes are matched as text). -/
structure DT where
  year : Nat
  month : Nat
  day : Nat
  hour : Nat
  minute : Nat
  second : Nat
  micro : Nat
deriving DecidableEq, Repr

/-- Python `datetime` comparison is field-lexicographic. -/
def dtLt (a b : DT) : Bool :=
  if a.year ≠ b.year then decide (a.year < b.year)
  else if a.month ≠ b.month then decide (a.month < b.month)
  else if a.day ≠ b.day then decide (a.day < b.day)
  else if a.hour ≠ b.hour then decide (a.hour < b.hour)
  else if a.minute ≠ b.minute then decide (a.minute < b.minute)
  else if a.second ≠ b.second then decide (a.second < b.second)
  else decide (a.micro < b.micro)

def isLeap (y : Nat) : Bool :=
  y % 4 == 0 && (y % 100 != 0 || y % 400 == 0)

def daysInMonth (y m : Nat) : Nat :=
  if m == 2 then (if isLeap y then 29 else 28)
  else if m == 4 || m == 6 || m == 9 || m == 11 then 30
  else 31

/-- Validation performed by the `datetime` constructor after `strptime`
matches (a failing constructor raises `ValueError`, which the parser's
`except ValueError: continue` turns into trying the next format). -/
def DT.valid (t : DT) : Bool :=
  decide (1 ≤ t.year) && decide (t.year ≤ 9999) &&
  decide (1 ≤ t.month) && decide (t.month ≤ 12) &&
  decide (1 ≤ t.day) && decide (t.day ≤ daysInMonth t.year t.month) &&
  decide (t.hour ≤ 23) && decide (t.minute ≤ 59) && decide (t.second ≤ 59)

def digitVal (c : Char) : Nat := c.toNat - 48

/-- Consume up to `n` further digits (greedy), accumulating value `v` and
digit count `k`. -/
def takeDigitsAux : Nat → List Char → Nat → Nat → Nat × Nat × List Char
  | 0, cs, v, k => (v, k, cs)
  | _ + 1, [], v, k => (v, k, [])
  | n + 1, c :: cs, v, k =>
      if c.isDigit then takeDigitsAux n cs (v * 10 + digitVal c) (k + 1)
      else (v, k, c :: cs)

/-- Consume 1 to `w` digits (greedy), as the `%m`/`%d`/`%H`/`%M`/`%S`/`%f`
field regexes do. -/
def takeDigits (w : Nat) : List Char → Option (Nat × Nat × List Char)
  | [] => none
  | c :: cs =>
      if c.isDigit then some (takeDigitsAux (w - 1) cs (digitVal c) 1)
      else none

/-- `%Y` matches exactly four digits. -/
def take4Digits : List Char → Option (Nat × List Char)
  | a :: b :: c :: d :: rest =>
      if a.isDigit && b.isDigit && c.isDigit && d.isDigit then
        some (((digitVal a * 10 + digitVal b) * 10 + digitVal c) * 10 + digitVal d, rest)
      else none
  | _ => none

/-- One directive or literal character of a `strptime` format string. -/
inductive FTok
  | lit (c : Char)
  | year | month | day | hour | minute | second | frac
deriving DecidableEq, Repr

/-- Run a format over the input; `strptime` requires the whole string to be
consumed.  `%f` right-pads to microseconds (`"5"` means 500000µs). -/
def runFmt : List FTok → List Char → DT → Option DT
  | [], [], t => some t
  | [], _ :: _, _ => none
  | FTok.lit _ :: _, [], _ => none
  | FTok.lit c :: ts, x :: xs, t => if x == c then runFmt ts xs t else none
  | FTok.year :: ts, cs, t =>
      match take4Digits cs with
      | some (n, rest) => runFmt ts rest { t with year := n }
      | none => none
  | FTok.month :: ts, cs, t =>
      match takeDigits 2 cs with
      | some (n, _, rest) => runFmt ts rest { t with month := n }
      | none => none
  | FTok.day :: ts, cs, t =>
      match takeDigits 2 cs with
      | some (n, _, rest) => runFmt ts rest { t with day := n }
      | none => none
  | FTok.hour :: ts, cs, t =>
      match takeDigits 2 cs with
      | some (n, _, rest) => runFmt ts rest { t with hour := n }
      | none => none
  | FTok.minute :: ts, cs, t =>
      match takeDigits 2 cs with
      | some (n, _, rest) => runFmt ts rest { t with minute := n }
      | none => none
  | FTok.second :: ts, cs, t =>
      match takeDigits 2 cs with
      | some (n, _, rest) => runFmt ts rest { t with second := n }
      | none => none
  | FTok.frac :: ts, cs, t =>
      match takeDigits 6 cs with
      | some (n, k, rest) => runFmt ts rest { t with micro := n * 10 ^ (6 - k) }
      | none => none

/-- `strptime` fields default to 1900-01-01 00:00:00. -/
def strptimeDefault : DT := ⟨1900, 1, 1, 0, 0, 0, 0⟩

def parseWith (toks : List FTok) (s : String) : Option DT :=
  match runFmt toks s.data strptimeDefault with
  | some t => if t.valid then some t else none
  | none => none

def fmtDatePart : List FTok := [.year, .lit '-', .month, .lit '-', .day]

def fmtTimePart : List FTok := [.hour, .lit ':', .minute, .lit ':', .second]

def utcOffsetLits : List FTok := [.lit '+', .lit '0', .lit '0', .lit ':', .lit '0', .lit '0']

/-- The seven formats of `SyncManager._parse_datetime`, in source order. -/
def formats : List (List FTok) :=
  [ fmtDatePart ++ [.lit 'T'] ++ fmtTimePart ++ [.lit '.', .frac] ++ utcOffsetLits,
    fmtDatePart ++ [.lit 'T'] ++ fmtTimePart ++ utcOffsetLits,
    fmtDatePart ++ [.lit 'T'] ++ fmtTimePart ++ [.lit '.', .frac, .lit 'Z'],
    fmtDatePart ++ [.lit 'T'] ++ fmtTimePart ++ [.lit 'Z'],
    fmtDatePart ++ [.lit 'T'] ++ fmtTimePart,
    fmtDatePart ++ [.lit ' '] ++ fmtTimePart,
    fmtDatePart ]

def tryFormats : List (List FTok) → String → Option DT
  | [], _ => none
  | f :: fs, s =>
      match parseWith f s with
      | some t => some t
      | none => tryFormats fs s

/-- `SyncManager._parse_datetime` (lines 199-220): `if not date_str: return
None`, then the first matching format wins, else `None`. -/
def parse_datetime : Option String → Option DT
  | none => none
  | some s => if s = "" then none else tryFormats formats s

example : parse_datetime (some "2024-01-02") = some ⟨2024, 1, 2, 0, 0, 0, 0⟩ := by decide

example : parse_datetime (some "2024-01-02T03:04:05.5Z") = some ⟨2024, 1, 2, 3, 4, 5, 500000⟩ := by
  decide

example : parse_datetime (some "2024-01-02T03:04:05+00:00") = some ⟨2024, 1, 2, 3, 4, 5, 0⟩ := by
  decide

example : parse_datetime (some "garbage") = none := by decide

example : parse_datetime (some "2024-02-30") = none := by decide

example : parse_datetime (some "") = none := by rfl

/-! ## Local store (`LocalDatabase`, `src/src/database/local_database.py`)

The three SQLite tables are lists of rows in insertion order.  `DELETE`
preserves the order of the remaining rows, so it is `List.filter`;
`INSERT` appends.  The autoincrement `id` of `sync_log` plays no role in
any claim and is omitted from the row.  `datetime.now().isoformat()` is
passed in as the `now` argument. -/

structure MeterRow where
  id : String
  user_id : String
  home_name : String
  meter_name : String
  meter_type : String
  created_at : String
  is_active : Bool
  synced : Bool
deriving DecidableEq, Repr

structure ReadingRow where
  id : String
  user_id : String
  meter_id : String
  reading_value : ℚ
  previous_reading : ℚ
  consumption_kwh : ℚ
  reading_date : String
  reading_time : String
  created_at : String
  updated_at : Option String
  synced : Bool
deriving DecidableEq, Repr

structure SyncLogRow where
  operation : String
  table_name : String
  record_id : String
  timestamp : String
  synced : Bool
deriving DecidableEq, Repr

structure LocalDB where
  meters : List MeterRow
  readings : List ReadingRow
  sync_log : List SyncLogRow
deriving DecidableEq, Repr

/-- The `meter_data` dict taken by `LocalDatabase.add_meter`. -/
structure MeterData where
  id : String
  user_id : String
  home_name : String
  meter_name : String
  meter_type : String
  created_at : String
deriving DecidableEq, Repr

/-- The `reading_data` dict taken by `LocalDatabase.add_reading`
(`reading_time` is fetched with `.get(..., '12:00:00')`). -/
structure ReadingData where
  id : String
  user_id : String
  meter_id : String
  reading_value : ℚ
  reading_date : String
  reading_time : Option String
  created_at : String
deriving DecidableEq, Repr

/-- `LocalDatabase.add_meter` (lines 68-102): no-op returning the given id
when a row with that id exists, else insert plus one `INSERT` log entry. -/
def add_meter (db : LocalDB) (md : MeterData) (now : String) : LocalDB × String :=
  if db.meters.any (fun m => m.id == md.id) then (db, md.id)
  else
    ({ meters := db.meters ++
        [⟨md.id, md.user_id, md.home_name, md.meter_name, md.meter_type, md.created_at,
          true, false⟩],
       readings := db.readings,
       sync_log := db.sync_log ++ [⟨"INSERT", "meters", md.id, now, false⟩] },
     md.id)

/-- Fold behind `ORDER BY reading_date DESC LIMIT 1`: pick a row with
maximal `reading_date` (first such row in table order on ties, where
SQLite leaves the order unspecified). -/
def pickLatest : Option ReadingRow → List ReadingRow → Option ReadingRow
  | acc, [] => acc
  | none, r :: rs => pickLatest (some r) rs
  | some b, r :: rs =>
      pickLatest (some (if b.reading_date < r.reading_date then r else b)) rs

/-- The `SELECT reading_value FROM readings WHERE meter_id = ? AND
reading_date < ? ORDER BY reading_date DESC LIMIT 1` of `add_reading`. -/
def selectPrev (rows : List ReadingRow) (meterId date : String) : Option ReadingRow :=
  pickLatest none
    (rows.filter (fun r => r.meter_id == meterId && decide (r.reading_date < date)))

/-- `LocalDatabase.add_reading` (lines 104-152). -/
def add_reading (db : LocalDB) (rd : ReadingData) (now : String) : LocalDB × String :=
  let current := rd.reading_value
  let pc : ℚ × ℚ :=
    match selectPrev db.readings rd.meter_id rd.reading_date with
    | some p => (p.reading_value, max 0 (current - p.reading_value))
    | none => (current, 0)
  ({ meters := db.meters,
     readings := db.readings ++
       [⟨rd.id, rd.user_id, rd.meter_id, current, pc.1, pc.2, rd.reading_date,
         rd.reading_time.getD "12:00:00", rd.created_at, none, false⟩],
     sync_log := db.sync_log ++ [⟨"INSERT", "readings", rd.id, now, false⟩] },
   rd.id)

/-- `LocalDatabase.delete_reading` (lines 332-353). -/
def delete_reading (db : LocalDB) (readingId : String) (now : String) : LocalDB × Bool :=
  if db.readings.any (fun r => r.id == readingId) then
    ({ meters := db.meters,
       readings := db.readings.filter (fun r => r.id != readingId),
       sync_log := db.sync_log ++ [⟨"DELETE", "readings", readingId, now, false⟩] },
     true)
  else (db, false)

/-- The rows of one `(user_id, home_name, meter_name)` group (the inner
`SELECT` of `remove_duplicate_meters`; note: no `is_active` filter). -/
def groupRows (db : LocalDB) (uid h mn : String) : List MeterRow :=
  db.meters.filter (fun m => m.user_id == uid && m.home_name == h && m.meter_name == mn)

/-- `ORDER BY created_at ASC` (stable on ties, where SQLite leaves the
order unspecified). -/
def sortByCreated (l : List MeterRow) : List MeterRow :=
  l.insertionSort (fun a b => a.created_at ≤ b.created_at)

instance : IsTotal MeterRow (fun a b => a.created_at ≤ b.created_at) :=
  ⟨fun _ _ => le_total _ _⟩

instance : IsTrans MeterRow (fun a b => a.created_at ≤ b.created_at) :=
  ⟨fun _ _ _ => le_trans⟩

/-- The `(home_name, meter_name)` pairs of the `GROUP BY ... HAVING
COUNT(*) > 1` query, computed on the database as it is when the loop
starts. -/
def dupKeys (db : LocalDB) (uid : String) : List (String × String) :=
  (((db.meters.filter (fun m => m.user_id == uid)).map
      (fun m => (m.home_name, m.meter_name))).dedup).filter
    (fun k => decide (1 < (groupRows db uid k.1 k.2).length))

/-- Body of the per-group loop of `remove_duplicate_meters`: keep the first
row of the `created_at`-sorted group, delete the rest (their meter rows,
their readings, and the sync-log entries whose `record_id` is theirs). -/
def delGroup (db : LocalDB) (uid h mn : String) : LocalDB × Nat :=
  match sortByCreated (groupRows db uid h mn) with
  | [] => (db, 0)
  | _ :: rest =>
      let removedIds := rest.map (fun m => m.id)
      ({ meters := db.meters.filter (fun m => !(removedIds.contains m.id)),
         readings := db.readings.filter (fun r => !(removedIds.contains r.meter_id)),
         sync_log := db.sync_log.filter (fun e => !(removedIds.contains e.record_id)) },
       rest.length)

/-- One iteration of the outer loop of `remove_duplicate_meters`. -/
def rdmStep (uid : String) (acc : LocalDB × Nat) (k : String × String) : LocalDB × Nat :=
  let r := delGroup acc.1 uid k.1 k.2
  (r.1, acc.2 + r.2)

/-- `LocalDatabase.remove_duplicate_meters` (lines 355-392). -/
def remove_duplicate_meters (db : LocalDB) (uid : String) : LocalDB × Nat :=
  (dupKeys db uid).foldl (rdmStep uid) (db, 0)

def emptyDB : LocalDB := ⟨[], [], []⟩

example :
    let d1 := (add_reading emptyDB ⟨"r1", "u", "m", 10, "2024-01-01", none, "c"⟩ "t1").1
    let d2 := (add_reading d1 ⟨"r2", "u", "m", 15, "2024-01-02", none, "c"⟩ "t2").1
    let d3 := (add_reading d2 ⟨"r3", "u", "m", 12, "2024-01-03", none, "c"⟩ "t3").1
    d3.readings.map (fun r => r.consumption_kwh) = [0, 5, 0] := by
  with_unfolding_all decide

/-! ## Reconciler (`SyncManager`, `src/src/core/sync_manager.py`)

`compare_databases` fetches snapshots and then runs `_compare_meters` and
`_compare_readings` on them; the embedding takes the four snapshots as
arguments.  Python dict comprehensions keyed by id let the last occurrence
win (`dictGet`); Python sets are modelled as deduplicated key lists (set
iteration order is arbitrary in Python, so a fixed order is a sound
model for the membership- and count-based properties proved below). -/

/-- A local meter dict as produced by `LocalDatabase.get_meters` (which
selects no `updated_at` column, hence the `Option`). -/
structure LMeter where
  id : String
  user_id : String
  home_name : String
  meter_name : String
  meter_type : String
  created_at : String
  updated_at : Option String
deriving DecidableEq, Repr

/-- A server meter document (`$updatedAt` / `$createdAt` audit fields). -/
structure SMeter where
  id : String
  user_id : String
  home_name : String
  meter_name : String
  meter_type : String
  createdAt : Option String
  updatedAt : Option String
deriving DecidableEq, Repr

/-- A local reading dict as produced by `LocalDatabase.get_readings`. -/
structure LReading where
  id : String
  user_id : String
  meter_id : String
  reading_value : ℚ
  previous_reading : ℚ
  consumption_kwh : ℚ
  reading_date : String
  reading_time : String
  created_at : String
deriving DecidableEq, Repr

/-- A server reading document. -/
structure SReading where
  id : String
  user_id : String
  meter_id : String
  reading_value : ℚ
  reading_date : String
  created_at : Option String
deriving DecidableEq, Repr

/-- Payload of a comparison entry (the `data`/`local_data`/`server_data`
dict values). -/
inductive EntityData
  | lm (m : LMeter)
  | sm (m : SMeter)
  | lr (r : LReading)
  | sr (r : SReading)
deriving DecidableEq, Repr

/-- One entry appended to a comparison list.  `etype` is the `'type'` key,
`ident` the `'id'` (meters) or `'key'` (readings); the remaining fields are
the optional dict keys the source sets per bucket. -/
structure CEntry where
  etype : String
  ident : String
  data : Option EntityData := none
  local_data : Option EntityData := none
  server_data : Option EntityData := none
  conflict_reason : Option String := none
deriving DecidableEq, Repr

/-- The comparison dict initialised at the top of `compare_databases`. -/
structure Comparison where
  local_newer : List CEntry := []
  server_newer : List CEntry := []
  local_only : List CEntry := []
  server_only : List CEntry := []
  conflicts : List CEntry := []
  in_sync : List CEntry := []
deriving DecidableEq, Repr

inductive Bucket
  | localNewer | serverNewer | localOnly | serverOnly | conflictsB | inSyncB
deriving DecidableEq, Repr

def Comparison.bucket (c : Comparison) : Bucket → List CEntry
  | .localNewer => c.local_newer
  | .serverNewer => c.server_newer
  | .localOnly => c.local_only
  | .serverOnly => c.server_only
  | .conflictsB => c.conflicts
  | .inSyncB => c.in_sync

/-- `comparison['...'].append(e)`. -/
def Comparison.add (c : Comparison) : Bucket → CEntry → Comparison
  | .localNewer, e => { c with local_newer := c.local_newer ++ [e] }
  | .serverNewer, e => { c with server_newer := c.server_newer ++ [e] }
  | .localOnly, e => { c with local_only := c.local_only ++ [e] }
  | .serverOnly, e => { c with server_only := c.server_only ++ [e] }
  | .conflictsB, e => { c with conflicts := c.conflicts ++ [e] }
  | .inSyncB, e => { c with in_sync := c.in_sync ++ [e] }

/-- Python dict lookup for a dict built by comprehension over `l` keyed by
`key` (a later occurrence overwrites an earlier one). -/
def dictGet {α : Type} (key : α → String) (l : List α) (i : String) : Option α :=
  l.foldl (fun acc m => if key m == i then some m else acc) none

/-- The distinct keys of such a dict (= the Python set of keys). -/
def keysOf {α : Type} (key : α → String) (l : List α) : List String :=
  (l.map key).dedup

/-- Python's `a or b` on two optional strings (`None` and `''` are falsy). -/
def pyOrStr (a b : Option String) : Option String :=
  match a with
  | some s => if s = "" then b else some s
  | none => b

/-- Timestamp `_compare_meters` uses for a local meter:
`local_meter.get('updated_at') or local_meter.get('created_at')`. -/
def localMeterTs (m : LMeter) : Option DT :=
  parse_datetime (pyOrStr m.updated_at (some m.created_at))

/-- Timestamp `_compare_meters` uses for a server meter:
`server_meter.get('$updatedAt') or server_meter.get('$createdAt')`. -/
def serverMeterTs (m : SMeter) : Option DT :=
  parse_datetime (pyOrStr m.updatedAt m.createdAt)

/-- Loop body for ids only in local: append to `local_only`. -/
def mLocalOnlyStep (lms : List LMeter) (c : Comparison) (i : String) : Comparison :=
  c.add .localOnly { etype := "meter", ident := i, data := (dictGet (fun m => m.id) lms i).map .lm }

/-- Loop body for ids only on the server: append to `server_only`. -/
def mServerOnlyStep (sms : List SMeter) (c : Comparison) (i : String) : Comparison :=
  c.add .serverOnly { etype := "meter", ident := i, data := (dictGet (fun m => m.id) sms i).map .sm }

/-- Loop body for common meter ids (lines 112-138): compare parsed
timestamps; when either fails to parse (`if local_updated and
server_updated` is false) the id is appended to no bucket at all. -/
def mCommonStep (lms : List LMeter) (sms : List SMeter) (c : Comparison) (i : String) :
    Comparison :=
  match dictGet (fun m => m.id) lms i, dictGet (fun m => m.id) sms i with
  | some lm, some sm =>
      match localMeterTs lm, serverMeterTs sm with
      | some lu, some su =>
          if dtLt su lu then
            c.add .localNewer
              { etype := "meter", ident := i, local_data := some (.lm lm),
                server_data := some (.sm sm) }
          else if dtLt lu su then
            c.add .serverNewer
              { etype := "meter", ident := i, local_data := some (.lm lm),
                server_data := some (.sm sm) }
          else c.add .inSyncB { etype := "meter", ident := i }
      | _, _ => c
  | _, _ => c

/-- `SyncManager._compare_meters` (lines 86-138). -/
def compare_meters (lms : List LMeter) (sms : List SMeter) (c : Comparison) : Comparison :=
  let localIds := keysOf (fun m => m.id) lms
  let serverIds := keysOf (fun m => m.id) sms
  let c1 := (localIds.filter (fun i => !(serverIds.contains i))).foldl (mLocalOnlyStep lms) c
  let c2 := (serverIds.filter (fun i => !(localIds.contains i))).foldl (mServerOnlyStep sms) c1
  (localIds.filter (fun i => serverIds.contains i)).foldl (mCommonStep lms sms) c2

/-- The per-day key `f"{meter_id}_{reading_date[:10]}"`. -/
def rkey (meterId dateStr : String) : String := meterId ++ "_" ++ dateStr.take 10

def lrKey (r : LReading) : String := rkey r.meter_id r.reading_date

def srKey (r : SReading) : String := rkey r.meter_id r.reading_date

/-- The `conflict_reason` f-string of `_compare_readings` (numeric
rendering modelled by `toString` on `ℚ`). -/
def reasonStr (lv sv : ℚ) : String :=
  "Value mismatch: local=" ++ toString lv ++ ", server=" ++ toString sv

def rLocalOnlyStep (lrs : List LReading) (c : Comparison) (k : String) : Comparison :=
  c.add .localOnly { etype := "reading", ident := k, data := (dictGet lrKey lrs k).map .lr }

def rServerOnlyStep (srs : List SReading) (c : Comparison) (k : String) : Comparison :=
  c.add .serverOnly { etype := "reading", ident := k, data := (dictGet srKey srs k).map .sr }

/-- Loop body for common reading keys (lines 176-197): absolute value
difference strictly above `0.01` is a conflict, else in sync. -/
def rCommonStep (lrs : List LReading) (srs : List SReading) (c : Comparison) (k : String) :
    Comparison :=
  match dictGet lrKey lrs k, dictGet srKey srs k with
  | some lr, some sr =>
      if 0.01 < |lr.reading_value - sr.reading_value| then
        c.add .conflictsB
          { etype := "reading", ident := k, local_data := some (.lr lr),
            server_data := some (.sr sr),
            conflict_reason := some (reasonStr lr.reading_value sr.reading_value) }
      else c.add .inSyncB { etype := "reading", ident := k }
  | _, _ => c

/-- `SyncManager._compare_readings` (lines 140-197). -/
def compare_readings (lrs : List LReading) (srs : List SReading) (c : Comparison) : Comparison :=
  let localKeys := keysOf lrKey lrs
  let serverKeys := keysOf srKey srs
  let c1 := (localKeys.filter (fun k => !(serverKeys.contains k))).foldl (rLocalOnlyStep lrs) c
  let c2 := (serverKeys.filter (fun k => !(localKeys.contains k))).foldl (rServerOnlyStep srs) c1
  (localKeys.filter (fun k => serverKeys.contains k)).foldl (rCommonStep lrs srs) c2

/-- `SyncManager.compare_databases` (lines 23-64) applied to the four
snapshots it fetches (local meters, server meters, local readings expanded
across local meters, server readings expanded across server meters). -/
def compare_databases (lms : List LMeter) (sms : List SMeter) (lrs : List LReading)
    (srs : List SReading) : Comparison :=
  compare_readings lrs srs (compare_meters lms sms {})

/-! ## Sync executor (`SyncManager.sync_local_to_server` /
`sync_server_to_local`, lines 222-273)

The per-item work is a call into an injected collaborator (the Appwrite
service, resp. the local database); those calls may raise for external
reasons, so they are modelled as `Except`-returning functions supplied as
arguments.  Dict-key accesses on an item of the wrong shape raise
`KeyError` inside the same `try`, modelled by the `Except`-returning field
projections below. -/

structure SyncResults where
  success : Nat
  failed : Nat
  items : List String
deriving DecidableEq, Repr

/-- `item['data']` (raises `KeyError` when the entry carries no `data`). -/
def getData (it : CEntry) : Except String EntityData :=
  match it.data with
  | some d => Except.ok d
  | none => Except.error "KeyError: data"

/-- `d['meter_name']`. -/
def dataMeterName : EntityData → Except String String
  | .lm m => Except.ok m.meter_name
  | .sm m => Except.ok m.meter_name
  | _ => Except.error "KeyError: meter_name"

/-- `d['reading_value']`. -/
def dataReadingValue : EntityData → Except String ℚ
  | .lr r => Except.ok r.reading_value
  | .sr r => Except.ok r.reading_value
  | _ => Except.error "KeyError: reading_value"

/-- The two remote calls `sync_local_to_server` delegates to
(`_sync_meter_to_server` / `_sync_reading_to_server`). -/
structure RemoteCalls where
  syncMeter : EntityData → Except String Unit
  syncReading : EntityData → Except String Unit

/-- The two local calls `sync_server_to_local` delegates to
(`_sync_meter_to_local` / `_sync_reading_to_local`). -/
structure LocalCalls where
  applyMeter : EntityData → Except String Unit
  applyReading : EntityData → Except String Unit

/-- Body of the `try` block of `sync_local_to_server` for one item, up to
and including computing the label appended to `results['items']` (the
debug `print` reads `item['data']['meter_name']` / `['reading_value']`
before the remote call is made). -/
def pushOne (svc : RemoteCalls) (it : CEntry) : Except String String :=
  if it.etype = "meter" then do
    let d ← getData it
    let n ← dataMeterName d
    svc.syncMeter d
    pure ("Meter: " ++ n)
  else do
    let d ← getData it
    let v ← dataReadingValue d
    svc.syncReading d
    pure ("Reading: " ++ toString v ++ " kWh")

/-- Body of the `try` block of `sync_server_to_local` for one item (here
the label's dict accesses happen after the local call). -/
def pullOne (svc : LocalCalls) (it : CEntry) : Except String String :=
  if it.etype = "meter" then do
    let d ← getData it
    svc.applyMeter d
    let n ← dataMeterName d
    pure ("Meter: " ++ n)
  else do
    let d ← getData it
    svc.applyReading d
    let v ← dataReadingValue d
    pure ("Reading: " ++ toString v ++ " kWh")

/-- One iteration of the `for item in items` loop: items whose `'type'` is
neither `'meter'` nor `'reading'` fall through the `if`/`elif` without
touching the counters; otherwise the `except` clause turns any raise into
`failed += 1`. -/
def execStep (body : CEntry → Except String String) (res : SyncResults) (it : CEntry) :
    SyncResults :=
  if it.etype = "meter" ∨ it.etype = "reading" then
    match body it with
    | Except.ok lbl =>
        { res with success := res.success + 1, items := res.items ++ [lbl] }
    | Except.error _ => { res with failed := res.failed + 1 }
  else res

/-- `SyncManager.sync_local_to_server` (lines 222-251). -/
def sync_local_to_server (svc : RemoteCalls) (items : List CEntry) : SyncResults :=
  items.foldl (execStep (pushOne svc)) ⟨0, 0, []⟩

/-- `SyncManager.sync_server_to_local` (lines 253-273). -/
def sync_server_to_local (svc : LocalCalls) (items : List CEntry) : SyncResults :=
  items.foldl (execStep (pullOne svc)) ⟨0, 0, []⟩

/-! ## Remote push with natural-key check
(`DirectAppwriteService.sync_meter` / `sync_reading`,
`src/src/database/direct_appwrite_service.py` lines 312-428)

The remote store is a pair of document lists.  `create_document` with an
explicit id fails on an id collision, in which case the bare `except`
falls back to `ID.unique()`; the generated id is the `freshId` argument.
`datetime.now().isoformat()` is the `now` argument. -/

structure RemoteMeterDoc where
  id : String
  user_id : String
  home_name : String
  meter_name : String
  meter_type : String
  created_at : String
deriving DecidableEq, Repr

structure RemoteReadingDoc where
  id : String
  user_id : String
  meter_id : String
  reading_value : ℚ
  reading_date : String
  reading_time : String
  consumption_kwh : ℚ
  created_at : String
deriving DecidableEq, Repr

structure RemoteDB where
  meters : List RemoteMeterDoc
  readings : List RemoteReadingDoc
deriving DecidableEq, Repr

/-- `DirectAppwriteService.sync_meter` (lines 312-365): list documents
matching `(user_id, meter_name, home_name)`; if any exists, return the
first and change nothing; otherwise create, preserving the caller's id
unless it collides. -/
def svc_sync_meter (db : RemoteDB) (meterId homeName meterName meterType userId : String)
    (createdAt : Option String) (now freshId : String) : RemoteDB × RemoteMeterDoc :=
  let existing := db.meters.filter
    (fun m => m.user_id == userId && m.meter_name == meterName && m.home_name == homeName)
  match existing with
  | e :: _ => (db, e)
  | [] =>
      let ca := (pyOrStr createdAt (some now)).getD now
      let docId := if db.meters.any (fun m => m.id == meterId) then freshId else meterId
      let doc : RemoteMeterDoc := ⟨docId, userId, homeName, meterName, meterType, ca⟩
      ({ db with meters := db.meters ++ [doc] }, doc)

/-- `DirectAppwriteService.sync_reading` (lines 367-428): list documents
matching `(user_id, meter_id, reading_date)`; if any exists, return the
first and change nothing; otherwise create (with `reading_time` noon and
`consumption_kwh` 0.0), preserving the caller's id unless it collides. -/
def svc_sync_reading (db : RemoteDB) (readingId meterId : String) (readingValue : ℚ)
    (readingDate userId : String) (createdAt : Option String) (now freshId : String) :
    RemoteDB × RemoteReadingDoc :=
  let existing := db.readings.filter
    (fun r => r.user_id == userId && r.meter_id == meterId && r.reading_date == readingDate)
  match existing with
  | e :: _ => (db, e)
  | [] =>
      let ca := (pyOrStr createdAt (some now)).getD now
      let docId := if db.readings.any (fun r => r.id == readingId) then freshId else readingId
      let doc : RemoteReadingDoc :=
        ⟨docId, userId, meterId, readingValue, readingDate, "12:00:00", 0, ca⟩
      ({ db with readings := db.readings ++ [doc] }, doc)

/-! ## Derived specification notions -/

/-- Occurrences of the key `(t, i)` in one comparison list. -/
def bcount (l : List CEntry) (t i : String) : Nat :=
  l.countP (fun e => e.etype == t && e.ident == i)

/-- Total occurrences of the key `(t, i)` across all six buckets. -/
def entCount (c : Comparison) (t i : String) : Nat :=
  bcount c.local_newer t i + bcount c.server_newer t i + bcount c.local_only t i +
    bcount c.server_only t i + bcount c.conflicts t i + bcount c.in_sync t i

/-- Whether the common-meter loop body appends anything for id `j`: both
dict lookups hit and both timestamps parse. -/
def mrCommonAdds (lms : List LMeter) (sms : List SMeter) (j : String) : Bool :=
  match dictGet (fun m => m.id) lms j, dictGet (fun m => m.id) sms j with
  | some lm, some sm => (localMeterTs lm).isSome && (serverMeterTs sm).isSome
  | _, _ => false

/-- Whether the common-reading loop body appends anything for key `k`:
both dict lookups hit (it then always appends exactly one entry). -/
def rdCommonAdds (lrs : List LReading) (srs : List SReading) (k : String) : Bool :=
  (dictGet lrKey lrs k).isSome && (dictGet srKey srs k).isSome

/-- The meter `remove_duplicate_meters` keeps for a group: the first row of
the `created_at`-sorted group. -/
def keeper (db : LocalDB) (uid h mn : String) : Option MeterRow :=
  (sortByCreated (groupRows db uid h mn)).head?

/-- The ids `remove_duplicate_meters` deletes for one group. -/
def groupTailIds (db : LocalDB) (uid h mn : String) : List String :=
  (sortByCreated (groupRows db uid h mn)).tail.map (fun m => m.id)

def removedIdsFor (db : LocalDB) (uid : String) (ks : List (String × String)) : List String :=
  (ks.map (fun k => groupTailIds db uid k.1 k.2)).flatten

/-- All meter ids `remove_duplicate_meters db uid` deletes. -/
def removedIdsAll (db : LocalDB) (uid : String) : List String :=
  removedIdsFor db uid (dupKeys db uid)

/-! ## Concrete data used in witnesses and counterexamples -/

def mRow1 : MeterRow :=
  ⟨"m1", "u1", "Home", "Meter", "electricity", "2024-01-01T00:00:00", true, false⟩

def dbOneMeter : LocalDB := ⟨[mRow1], [], []⟩

def mdOne : MeterData := ⟨"m1", "u1", "Home", "Meter", "electricity", "2024-01-01T00:00:00"⟩

def rRow1 : ReadingRow :=
  ⟨"r1", "u1", "m1", 10, 10, 0, "2024-01-01", "12:00:00", "c1", none, false⟩

def dbOneReading : LocalDB := ⟨[], [rRow1], []⟩

def rdTen : ReadingData := ⟨"r1", "u", "m", 10, "2024-01-01", none, "c"⟩

/-- A local meter whose only timestamp string parses under no format. -/
def lmBadTs : LMeter := ⟨"m1", "u1", "Home", "Meter", "electricity", "not-a-date", none⟩

/-- A server meter (same id) with a parseable `$createdAt`. -/
def smGoodTs : SMeter :=
  ⟨"m1", "u1", "Home", "Meter", "electricity", some "2024-01-01T00:00:00", none⟩

/-- A second common pair where the server side carries no audit fields. -/
def lmBadTs2 : LMeter := ⟨"m2", "u1", "Home", "Meter2", "electricity", "oops", none⟩

def smNoTs2 : SMeter := ⟨"m2", "u1", "Home", "Meter2", "electricity", none, none⟩

def lrHundred : LReading :=
  ⟨"r1", "u1", "m1", 100, 100, 0, "2024-01-01", "12:00:00", "c1"⟩

def srNear : SReading := ⟨"sr1", "u1", "m1", 100.005, "2024-01-01", none⟩

def lrHundred2 : LReading :=
  ⟨"r2", "u1", "m2", 100, 100, 0, "2024-01-01", "12:00:00", "c1"⟩

def srFar : SReading := ⟨"sr2", "u1", "m2", 100.02, "2024-01-01", none⟩

/-- Remote calls that always raise (e.g. a network failure). -/
def failingRemote : RemoteCalls :=
  ⟨fun _ => Except.error "network", fun _ => Except.error "network"⟩

/-- Local calls that always succeed. -/
def okLocal : LocalCalls := ⟨fun _ => Except.ok (), fun _ => Except.ok ()⟩

/-- Remote calls that always succeed. -/
def okRemote : RemoteCalls := ⟨fun _ => Except.ok (), fun _ => Except.ok ()⟩

/-- Local calls that always raise (e.g. `LocalDatabase` has no
`update_meter`, so `_sync_meter_to_local` raises `AttributeError` on the
update path). -/
def failingLocal : LocalCalls :=
  ⟨fun _ => Except.error "AttributeError", fun _ => Except.error "AttributeError"⟩

def meterItem1 : CEntry := { etype := "meter", ident := "m1", data := some (.lm lmBadTs) }

def readingItem1 : CEntry := { etype := "reading", ident := "m1_2024-01-01", data := some (.lr lrHundred) }

def bogusItem : CEntry := { etype := "conflict_marker", ident := "z" }

/-- An active duplicate of `mRow1`'s labels created later. -/
def mRow2Active : MeterRow :=
  ⟨"m2", "u1", "Home", "Meter", "electricity", "2024-02-01T00:00:00", true, false⟩

/-- An inactive meter sharing labels with `mRow2Active`, created earlier. -/
def mRow1Inactive : MeterRow :=
  ⟨"m1", "u1", "Home", "Meter", "electricity", "2024-01-01T00:00:00", false, false⟩

/-- State for the C5 counterexample: the only active meter in its
`(owner, home, meter)` label group coexists with an older inactive one. -/
def dbActiveDup : LocalDB := ⟨[mRow1Inactive, mRow2Active], [], []⟩

def rmMeter1 : RemoteMeterDoc := ⟨"m1", "u1", "Home", "Meter", "electricity", "2024-01-01"⟩

def rmReading1 : RemoteReadingDoc :=
  ⟨"r1", "u1", "m1", 100, "2024-01-01", "12:00:00", 0, "2024-01-01"⟩

def remoteOne : RemoteDB := ⟨[rmMeter1], [rmReading1]⟩

/-! ## Lemmas about `selectPrev` -/

theorem pickLatest_eq_none {acc : Option ReadingRow} {l : List ReadingRow} :
    pickLatest acc l = none ↔ acc = none ∧ l = [] := by
  induction l generalizing acc with
  | nil => cases acc <;> simp [pickLatest]
  | cons r rs ih =>
      cases acc with
      | none => simp [pickLatest, ih]
      | some b => simp [pickLatest, ih]

theorem pickLatest_sound {acc : Option ReadingRow} {l : List ReadingRow} {p : ReadingRow}
    (h : pickLatest acc l = some p) :
    (acc = some p ∨ p ∈ l) ∧ (∀ q ∈ l, q.reading_date ≤ p.reading_date) ∧
      (∀ b, acc = some b → b.reading_date ≤ p.reading_date) := by
  induction l generalizing acc with
  | nil =>
      simp only [pickLatest] at h
      subst h
      exact ⟨Or.inl rfl, by simp, fun b hb => by cases hb; exact le_refl _⟩
  | cons r rs ih =>
      cases acc with
      | none =>
          obtain ⟨hmem, hall, hacc⟩ := ih (show pickLatest (some r) rs = some p from h)
          refine ⟨Or.inr ?_, ?_, fun b hb => by cases hb⟩
          · rcases hmem with he | hm
            · exact (Option.some_inj.mp he) ▸ List.mem_cons_self _ _
            · exact List.mem_cons_of_mem _ hm
          · intro q hq
            rcases List.mem_cons.mp hq with rfl | hq'
            · exact hacc q rfl
            · exact hall q hq'
      | some b =>
          obtain ⟨hmem, hall, hacc⟩ :=
            ih (show pickLatest (some (if b.reading_date < r.reading_date then r else b)) rs
                  = some p from h)
          have hrm : r.reading_date ≤ (if b.reading_date < r.reading_date then r
              else b).reading_date := by
            split
            · exact le_refl _
            · exact le_of_not_lt (by assumption)
          have hbm : b.reading_date ≤ (if b.reading_date < r.reading_date then r
              else b).reading_date := by
            split
            · exact le_of_lt (by assumption)
            · exact le_refl _
          have hmp : (if b.reading_date < r.reading_date then r else b).reading_date ≤
              p.reading_date := hacc _ rfl
          refine ⟨?_, ?_, ?_⟩
          · rcases hmem with he | hm
            · have he' := Option.some_inj.mp he
              by_cases hbr : b.reading_date < r.reading_date
              · rw [if_pos hbr] at he'
                exact Or.inr (he' ▸ List.mem_cons_self _ _)
              · rw [if_neg hbr] at he'
                exact Or.inl (congrArg some he')
            · exact Or.inr (List.mem_cons_of_mem _ hm)
          · intro q hq
            rcases List.mem_cons.mp hq with rfl | hq'
            · exact le_trans hrm hmp
            · exact hall q hq'
          · intro b' hb'
            cases hb'
            exact le_trans hbm hmp

theorem selectPrev_eq_none (rows : List ReadingRow) (mId d : String) :
    selectPrev rows mId d = none ↔
      ∀ r ∈ rows, r.meter_id = mId → ¬(r.reading_date < d) := by
  rw [selectPrev, pickLatest_eq_none]
  simp [List.filter_eq_nil_iff]

theorem selectPrev_some_spec {rows : List ReadingRow} {mId d : String} {p : ReadingRow}
    (hp : selectPrev rows mId d = some p) :
    p ∈ rows ∧ p.meter_id = mId ∧ p.reading_date < d ∧
      ∀ q ∈ rows, q.meter_id = mId → q.reading_date < d →
        q.reading_date ≤ p.reading_date := by
  obtain ⟨hmem, hall, -⟩ := pickLatest_sound (show pickLatest none _ = some p from hp)
  have hpf : p ∈ rows.filter (fun r => r.meter_id == mId && decide (r.reading_date < d)) := by
    rcases hmem with he | hm
    · cases he
    · exact hm
  have hpf' := List.mem_filter.mp hpf
  have hcond : p.meter_id = mId ∧ p.reading_date < d := by simpa using hpf'.2
  refine ⟨hpf'.1, hcond.1, hcond.2, ?_⟩
  intro q hq hqm hqd
  exact hall q (List.mem_filter.mpr ⟨hq, by simp [hqm, hqd]⟩)

/-! ## Claim theorems: local store -/

/-- C1: a reading stored by `add_reading` carries
`consumption = max(0, value − value of the most recent strictly-earlier
reading on the same meter)`, and when no strictly-earlier reading exists,
`previous_reading = value` and `consumption = 0`. -/
theorem add_reading_consumption (db : LocalDB) (rd : ReadingData) (now : String) :
    ∃ row : ReadingRow,
      (add_reading db rd now).1.readings = db.readings ++ [row] ∧
      row.reading_value = rd.reading_value ∧
      (∀ p, selectPrev db.readings rd.meter_id rd.reading_date = some p →
        p ∈ db.readings ∧ p.meter_id = rd.meter_id ∧ p.reading_date < rd.reading_date ∧
        (∀ q ∈ db.readings, q.meter_id = rd.meter_id → q.reading_date < rd.reading_date →
          q.reading_date ≤ p.reading_date) ∧
        row.previous_reading = p.reading_value ∧
        row.consumption_kwh = max 0 (rd.reading_value - p.reading_value)) ∧
      ((∀ r ∈ db.readings, r.meter_id = rd.meter_id → ¬(r.reading_date < rd.reading_date)) →
        row.previous_reading = rd.reading_value ∧ row.consumption_kwh = 0) := by
  cases hsel : selectPrev db.readings rd.meter_id rd.reading_date with
  | none =>
      refine ⟨⟨rd.id, rd.user_id, rd.meter_id, rd.reading_value, rd.reading_value, 0,
        rd.reading_date, rd.reading_time.getD "12:00:00", rd.created_at, none, false⟩,
        ?_, rfl, ?_, ?_⟩
      · simp [add_reading, hsel]
      · intro p hp
        cases hp
      · intro _
        exact ⟨rfl, rfl⟩
  | some p0 =>
      refine ⟨⟨rd.id, rd.user_id, rd.meter_id, rd.reading_value, p0.reading_value,
        max 0 (rd.reading_value - p0.reading_value), rd.reading_date,
        rd.reading_time.getD "12:00:00", rd.created_at, none, false⟩,
        ?_, rfl, ?_, ?_⟩
      · simp [add_reading, hsel, max_def]
      · intro p hp
        cases hp
        obtain ⟨h1, h2, h3, h4⟩ := selectPrev_some_spec hsel
        exact ⟨h1, h2, h3, h4, rfl, rfl⟩
      · intro hnone
        have : selectPrev db.readings rd.meter_id rd.reading_date = none :=
          (selectPrev_eq_none _ _ _).mpr hnone
        rw [hsel] at this
        cases this

/-- Witness for C1, at the spec's own scenario (values 10, 15, 12 on
ascending dates giving consumptions 0, 5, 0) and a concrete application of
the theorem. -/
theorem add_reading_consumption_witness :
    ((let d1 := (add_reading emptyDB ⟨"r1", "u", "m", 10, "2024-01-01", none, "c"⟩ "t1").1
      let d2 := (add_reading d1 ⟨"r2", "u", "m", 15, "2024-01-02", none, "c"⟩ "t2").1
      let d3 := (add_reading d2 ⟨"r3", "u", "m", 12, "2024-01-03", none, "c"⟩ "t3").1
      d3.readings.map (fun r => r.consumption_kwh) = [0, 5, 0]) ∧
     ∃ row : ReadingRow,
      (add_reading emptyDB rdTen "t").1.readings = emptyDB.readings ++ [row] ∧
      row.reading_value = rdTen.reading_value ∧
      (∀ p, selectPrev emptyDB.readings rdTen.meter_id rdTen.reading_date = some p →
        p ∈ emptyDB.readings ∧ p.meter_id = rdTen.meter_id ∧
        p.reading_date < rdTen.reading_date ∧
        (∀ q ∈ emptyDB.readings, q.meter_id = rdTen.meter_id →
          q.reading_date < rdTen.reading_date → q.reading_date ≤ p.reading_date) ∧
        row.previous_reading = p.reading_value ∧
        row.consumption_kwh = max 0 (rdTen.reading_value - p.reading_value)) ∧
      ((∀ r ∈ emptyDB.readings, r.meter_id = rdTen.meter_id →
          ¬(r.reading_date < rdTen.reading_date)) →
        row.previous_reading = rdTen.reading_value ∧ row.consumption_kwh = 0)) :=
  ⟨by with_unfolding_all decide, add_reading_consumption emptyDB rdTen "t"⟩

/-- C7: `add_meter` is idempotent on the record id: an existing id makes it
a complete no-op returning that id, otherwise it inserts the meter row and
appends exactly one `INSERT` log entry. -/
theorem add_meter_idempotent (db : LocalDB) (md : MeterData) (now : String) :
    ((∃ m ∈ db.meters, m.id = md.id) → add_meter db md now = (db, md.id)) ∧
    ((¬ ∃ m ∈ db.meters, m.id = md.id) →
      add_meter db md now =
        ({ meters := db.meters ++
             [⟨md.id, md.user_id, md.home_name, md.meter_name, md.meter_type, md.created_at,
               true, false⟩],
           readings := db.readings,
           sync_log := db.sync_log ++ [⟨"INSERT", "meters", md.id, now, false⟩] }, md.id)) := by
  constructor
  · intro h
    have hb : db.meters.any (fun m => m.id == md.id) = true := by
      simpa [List.any_eq_true] using h
    simp [add_meter, hb]
  · intro h
    have hb : ¬(db.meters.any (fun m => m.id == md.id) = true) := by
      simpa [List.any_eq_true] using h
    simp [add_meter, hb]

/-- Witness for C7: both branches at concrete states. -/
theorem add_meter_idempotent_witness :
    add_meter dbOneMeter mdOne "t" = (dbOneMeter, "m1") ∧
    add_meter emptyDB mdOne "t" =
      ({ meters := emptyDB.meters ++
           [⟨mdOne.id, mdOne.user_id, mdOne.home_name, mdOne.meter_name, mdOne.meter_type,
             mdOne.created_at, true, false⟩],
         readings := emptyDB.readings,
         sync_log := emptyDB.sync_log ++ [⟨"INSERT", "meters", mdOne.id, "t", false⟩] },
       mdOne.id) :=
  ⟨(add_meter_idempotent dbOneMeter mdOne "t").1 ⟨mRow1, by simp [dbOneMeter], rfl⟩,
   (add_meter_idempotent emptyDB mdOne "t").2 (by simp [emptyDB])⟩

/-- C8: `delete_reading` returns whether the reading id existed; when it
does, the row is removed and one `DELETE` log entry appended; when it does
not, the database is returned entirely unchanged. -/
theorem delete_reading_semantics (db : LocalDB) (rid now : String) :
    ((∃ r ∈ db.readings, r.id = rid) →
      delete_reading db rid now =
        ({ meters := db.meters,
           readings := db.readings.filter (fun r => r.id != rid),
           sync_log := db.sync_log ++ [⟨"DELETE", "readings", rid, now, false⟩] }, true)) ∧
    ((¬ ∃ r ∈ db.readings, r.id = rid) → delete_reading db rid now = (db, false)) := by
  constructor
  · intro h
    have hb : db.readings.any (fun r => r.id == rid) = true := by
      simpa [List.any_eq_true] using h
    simp [delete_reading, hb]
  · intro h
    have hb : ¬(db.readings.any (fun r => r.id == rid) = true) := by
      simpa [List.any_eq_true] using h
    simp [delete_reading, hb]

/-- Witness for C8: both branches at concrete states. -/
theorem delete_reading_semantics_witness :
    delete_reading dbOneReading "r1" "t" =
      ({ meters := dbOneReading.meters,
         readings := dbOneReading.readings.filter (fun r => r.id != "r1"),
         sync_log := dbOneReading.sync_log ++ [⟨"DELETE", "readings", "r1", "t", false⟩] },
       true) ∧
    delete_reading dbOneReading "zzz" "t" = (dbOneReading, false) :=
  ⟨(delete_reading_semantics dbOneReading "r1" "t").1 ⟨rRow1, by simp [dbOneReading], rfl⟩,
   (delete_reading_semantics dbOneReading "zzz" "t").2 (by simp [dbOneReading, rRow1])⟩

/-- C10: when a remote document with the same natural key exists,
`sync_meter` / `sync_reading` return the first existing document and leave
the remote store entirely unchanged, whatever values were pushed. -/
theorem sync_push_preserves_existing (db : RemoteDB)
    (meterId homeName meterName meterType userId : String) (createdAt : Option String)
    (now freshId : String) (readingId meterId2 : String) (rv : ℚ)
    (readingDate userId2 : String) (createdAt2 : Option String) (now2 freshId2 : String) :
    ((∃ m ∈ db.meters, m.user_id = userId ∧ m.meter_name = meterName ∧ m.home_name = homeName) →
      (svc_sync_meter db meterId homeName meterName meterType userId createdAt now freshId).1
          = db ∧
      ∃ m ∈ db.meters,
        (svc_sync_meter db meterId homeName meterName meterType userId createdAt now
            freshId).2 = m ∧
        m.user_id = userId ∧ m.meter_name = meterName ∧ m.home_name = homeName) ∧
    ((∃ r ∈ db.readings,
        r.user_id = userId2 ∧ r.meter_id = meterId2 ∧ r.reading_date = readingDate) →
      (svc_sync_reading db readingId meterId2 rv readingDate userId2 createdAt2 now2
          freshId2).1 = db ∧
      ∃ r ∈ db.readings,
        (svc_sync_reading db readingId meterId2 rv readingDate userId2 createdAt2 now2
            freshId2).2 = r ∧
        r.user_id = userId2 ∧ r.meter_id = meterId2 ∧ r.reading_date = readingDate) := by
  constructor
  · intro h
    obtain ⟨m0, hm0, h1, h2, h3⟩ := h
    have hm0' : m0 ∈ db.meters.filter
        (fun m => m.user_id == userId && m.meter_name == meterName &&
          m.home_name == homeName) :=
      List.mem_filter.mpr ⟨hm0, by simp [h1, h2, h3]⟩
    cases hfl : db.meters.filter
        (fun m => m.user_id == userId && m.meter_name == meterName &&
          m.home_name == homeName) with
    | nil => rw [hfl] at hm0'; cases hm0'
    | cons e es =>
        have he : e ∈ db.meters.filter
            (fun m => m.user_id == userId && m.meter_name == meterName &&
              m.home_name == homeName) := by
          rw [hfl]; exact List.mem_cons_self _ _
        have he' := List.mem_filter.mp he
        have hc : (e.user_id = userId ∧ e.meter_name = meterName) ∧
            e.home_name = homeName := by
          simpa using he'.2
        refine ⟨?_, e, he'.1, ?_, hc.1.1, hc.1.2, hc.2⟩
        · simp [svc_sync_meter, hfl]
        · simp [svc_sync_meter, hfl]
  · intro h
    obtain ⟨r0, hr0, h1, h2, h3⟩ := h
    have hr0' : r0 ∈ db.readings.filter
        (fun r => r.user_id == userId2 && r.meter_id == meterId2 &&
          r.reading_date == readingDate) :=
      List.mem_filter.mpr ⟨hr0, by simp [h1, h2, h3]⟩
    cases hfl : db.readings.filter
        (fun r => r.user_id == userId2 && r.meter_id == meterId2 &&
          r.reading_date == readingDate) with
    | nil => rw [hfl] at hr0'; cases hr0'
    | cons e es =>
        have he : e ∈ db.readings.filter
            (fun r => r.user_id == userId2 && r.meter_id == meterId2 &&
              r.reading_date == readingDate) := by
          rw [hfl]; exact List.mem_cons_self _ _
        have he' := List.mem_filter.mp he
        have hc : (e.user_id = userId2 ∧ e.meter_id = meterId2) ∧
            e.reading_date = readingDate := by
          simpa using he'.2
        refine ⟨?_, e, he'.1, ?_, hc.1.1, hc.1.2, hc.2⟩
        · simp [svc_sync_reading, hfl]
        · simp [svc_sync_reading, hfl]

/-- Witness for C10: pushing different values against `remoteOne` leaves it
unchanged and returns the stored documents. -/
theorem sync_push_preserves_existing_witness :
    (svc_sync_meter remoteOne "otherId" "Home" "Meter" "water" "u1" none "t" "f").1
        = remoteOne ∧
    (svc_sync_meter remoteOne "otherId" "Home" "Meter" "water" "u1" none "t" "f").2
        = rmMeter1 ∧
    (svc_sync_reading remoteOne "otherRid" "m1" 999 "2024-01-01" "u1" none "t" "f").1
        = remoteOne ∧
    (svc_sync_reading remoteOne "otherRid" "m1" 999 "2024-01-01" "u1" none "t" "f").2
        = rmReading1 := by
  have h := sync_push_preserves_existing remoteOne "otherId" "Home" "Meter" "water" "u1"
    none "t" "f" "otherRid" "m1" 999 "2024-01-01" "u1" none "t" "f"
  have ha := h.1 ⟨rmMeter1, by simp [remoteOne], rfl, rfl, rfl⟩
  have hb := h.2 ⟨rmReading1, by simp [remoteOne], rfl, rfl, rfl⟩
  obtain ⟨ha1, m, hm, hmeq, -⟩ := ha
  obtain ⟨hb1, r, hr, hreq, -⟩ := hb
  have hm1 : m = rmMeter1 := by simpa [remoteOne] using hm
  have hr1 : r = rmReading1 := by simpa [remoteOne] using hr
  exact ⟨ha1, hm1 ▸ hmeq, hb1, hr1 ▸ hreq⟩

/-! ## Lemmas about the sync executor -/

/-- Folding `execStep` from any starting accumulator just shifts the
counters and labels accumulated from the zero accumulator. -/
theorem foldl_execStep_shift (body : CEntry → Except String String) (l : List CEntry)
    (r : SyncResults) :
    l.foldl (execStep body) r =
      ⟨r.success + (l.foldl (execStep body) ⟨0, 0, []⟩).success,
       r.failed + (l.foldl (execStep body) ⟨0, 0, []⟩).failed,
       r.items ++ (l.foldl (execStep body) ⟨0, 0, []⟩).items⟩ := by
  induction l generalizing r with
  | nil => cases r; simp
  | cons x xs ih =>
      rw [List.foldl_cons, List.foldl_cons, ih (execStep body r x),
        ih (execStep body ⟨0, 0, []⟩ x)]
      by_cases h : (x.etype = "meter" ∨ x.etype = "reading")
      · cases hb : body x <;>
          simp [execStep, h, hb, Nat.add_assoc, List.append_assoc]
      · simp [execStep, h]

/-- `success + failed` counts exactly the items whose `'type'` is `meter`
or `reading`. -/
theorem execStep_total (body : CEntry → Except String String) (items : List CEntry) :
    (items.foldl (execStep body) ⟨0, 0, []⟩).success +
        (items.foldl (execStep body) ⟨0, 0, []⟩).failed =
      items.countP (fun it => it.etype == "meter" || it.etype == "reading") := by
  induction items with
  | nil => rfl
  | cons x xs ih =>
      rw [List.foldl_cons, foldl_execStep_shift, List.countP_cons]
      by_cases h : (x.etype = "meter" ∨ x.etype = "reading")
      · have hcond : (x.etype == "meter" || x.etype == "reading") = true := by
          rcases h with h | h <;> simp [h]
        cases hb : body x <;> simp [execStep, h, hb, hcond] <;> omega
      · have h' : ¬x.etype = "meter" ∧ ¬x.etype = "reading" := not_or.mp h
        have hcond : (x.etype == "meter" || x.etype == "reading") = false := by
          simp [h'.1, h'.2]
        simp [execStep, h, hcond]
        omega

/-! ## Claim theorems: sync executor -/

/-- C6: one item's exception is caught and counted as one failure; the
items before and after it are processed exactly as they would be on their
own, and the function returns counts and labels instead of propagating. -/
theorem sync_item_failure_isolated (push : RemoteCalls) (pull : LocalCalls)
    (xs ys : List CEntry) (x : CEntry) (e e' : String)
    (hx : x.etype = "meter" ∨ x.etype = "reading") :
    (pushOne push x = Except.error e →
      sync_local_to_server push (xs ++ x :: ys) =
        ⟨(sync_local_to_server push xs).success + (sync_local_to_server push ys).success,
         (sync_local_to_server push xs).failed + 1 + (sync_local_to_server push ys).failed,
         (sync_local_to_server push xs).items ++ (sync_local_to_server push ys).items⟩) ∧
    (pullOne pull x = Except.error e' →
      sync_server_to_local pull (xs ++ x :: ys) =
        ⟨(sync_server_to_local pull xs).success + (sync_server_to_local pull ys).success,
         (sync_server_to_local pull xs).failed + 1 + (sync_server_to_local pull ys).failed,
         (sync_server_to_local pull xs).items ++ (sync_server_to_local pull ys).items⟩) := by
  constructor
  · intro he
    unfold sync_local_to_server
    rw [List.foldl_append, List.foldl_cons]
    have hstep : execStep (pushOne push) (xs.foldl (execStep (pushOne push)) ⟨0, 0, []⟩) x =
        ⟨(xs.foldl (execStep (pushOne push)) ⟨0, 0, []⟩).success,
         (xs.foldl (execStep (pushOne push)) ⟨0, 0, []⟩).failed + 1,
         (xs.foldl (execStep (pushOne push)) ⟨0, 0, []⟩).items⟩ := by
      simp [execStep, hx, he]
    rw [hstep, foldl_execStep_shift]
  · intro he
    unfold sync_server_to_local
    rw [List.foldl_append, List.foldl_cons]
    have hstep : execStep (pullOne pull) (xs.foldl (execStep (pullOne pull)) ⟨0, 0, []⟩) x =
        ⟨(xs.foldl (execStep (pullOne pull)) ⟨0, 0, []⟩).success,
         (xs.foldl (execStep (pullOne pull)) ⟨0, 0, []⟩).failed + 1,
         (xs.foldl (execStep (pullOne pull)) ⟨0, 0, []⟩).items⟩ := by
      simp [execStep, hx, he]
    rw [hstep, foldl_execStep_shift]

/-- Witness for C6: a failing middle item between two succeeding ones, in
both directions. -/
theorem sync_item_failure_isolated_witness :
    pushOne failingRemote meterItem1 = Except.error "network" ∧
    sync_local_to_server failingRemote ([readingItem1] ++ meterItem1 :: [readingItem1]) =
      ⟨(sync_local_to_server failingRemote [readingItem1]).success +
          (sync_local_to_server failingRemote [readingItem1]).success,
       (sync_local_to_server failingRemote [readingItem1]).failed + 1 +
          (sync_local_to_server failingRemote [readingItem1]).failed,
       (sync_local_to_server failingRemote [readingItem1]).items ++
          (sync_local_to_server failingRemote [readingItem1]).items⟩ ∧
    pullOne failingLocal meterItem1 = Except.error "AttributeError" ∧
    sync_server_to_local failingLocal ([readingItem1] ++ meterItem1 :: [readingItem1]) =
      ⟨(sync_server_to_local failingLocal [readingItem1]).success +
          (sync_server_to_local failingLocal [readingItem1]).success,
       (sync_server_to_local failingLocal [readingItem1]).failed + 1 +
          (sync_server_to_local failingLocal [readingItem1]).failed,
       (sync_server_to_local failingLocal [readingItem1]).items ++
          (sync_server_to_local failingLocal [readingItem1]).items⟩ := by
  have h := sync_item_failure_isolated failingRemote failingLocal [readingItem1] [readingItem1]
    meterItem1 "network" "AttributeError" (Or.inl rfl)
  exact ⟨rfl, h.1 rfl, rfl, h.2 rfl⟩

/-- C9: items of unknown type are silently skipped — `success + failed`
counts exactly the meter/reading items, and is strictly below the input
length as soon as an unknown-type item is present. -/
theorem sync_unknown_type_skipped (push : RemoteCalls) (pull : LocalCalls)
    (items : List CEntry) :
    ((sync_local_to_server push items).success + (sync_local_to_server push items).failed =
      items.countP (fun it => it.etype == "meter" || it.etype == "reading")) ∧
    ((sync_server_to_local pull items).success + (sync_server_to_local pull items).failed =
      items.countP (fun it => it.etype == "meter" || it.etype == "reading")) ∧
    ((∃ it ∈ items, it.etype ≠ "meter" ∧ it.etype ≠ "reading") →
      (sync_local_to_server push items).success + (sync_local_to_server push items).failed
          < items.length ∧
      (sync_server_to_local pull items).success + (sync_server_to_local pull items).failed
          < items.length) := by
  refine ⟨execStep_total _ items, execStep_total _ items, ?_⟩
  intro h
  obtain ⟨it, hit, h1, h2⟩ := h
  have hlt : items.countP (fun it => it.etype == "meter" || it.etype == "reading")
      < items.length := by
    have hle := List.countP_le_length
      (p := fun it => it.etype == "meter" || it.etype == "reading") (l := items)
    rcases Nat.lt_or_ge (items.countP
        (fun it => it.etype == "meter" || it.etype == "reading")) items.length with hl | hg
    · exact hl
    · exfalso
      have heq : items.countP (fun it => it.etype == "meter" || it.etype == "reading")
          = items.length := le_antisymm hle hg
      have hall := List.countP_eq_length.mp heq it hit
      simp [h1, h2] at hall
  exact ⟨(execStep_total _ items) ▸ hlt, (execStep_total _ items) ▸ hlt⟩

/-! ## Lemmas about dict lookups and bucket counts -/

theorem dictGet_cons {α : Type} (key : α → String) (x : α) (l : List α) (i : String) :
    dictGet key (x :: l) i =
      match dictGet key l i with
      | some y => some y
      | none => if key x == i then some x else none := by
  have haux : ∀ (l : List α) (acc : Option α),
      l.foldl (fun acc m => if key m == i then some m else acc) acc =
        match dictGet key l i with
        | some y => some y
        | none => acc := by
    intro l
    induction l with
    | nil => intro acc; simp [dictGet]
    | cons y ys ih =>
        intro acc
        rw [List.foldl_cons]
        rw [ih]
        show _ = (match dictGet key (y :: ys) i with | some z => some z | none => acc)
        rw [show dictGet key (y :: ys) i =
          ys.foldl (fun acc m => if key m == i then some m else acc)
            (if key y == i then some y else none) from rfl]
        rw [ih]
        cases dictGet key ys i with
        | some z => rfl
        | none => cases h : (key y == i) <;> simp [h]
  rw [show dictGet key (x :: l) i =
    l.foldl (fun acc m => if key m == i then some m else acc)
      (if key x == i then some x else none) from rfl]
  rw [haux]

theorem dictGet_mem {α : Type} {key : α → String} {l : List α} {i : String} {x : α}
    (h : dictGet key l i = some x) : x ∈ l ∧ key x = i := by
  induction l with
  | nil => simp [dictGet] at h
  | cons y ys ih =>
      rw [dictGet_cons] at h
      cases hy : dictGet key ys i with
      | some z =>
          rw [hy] at h
          obtain ⟨hm, hk⟩ := ih (hy.trans h)
          exact ⟨List.mem_cons_of_mem _ hm, hk⟩
      | none =>
          rw [hy] at h
          by_cases hx : (key y == i) = true
          · rw [if_pos hx] at h
            cases h
            exact ⟨List.mem_cons_self _ _, by simpa using hx⟩
          · rw [if_neg hx] at h
            cases h

theorem dictGet_isSome_of_exists {α : Type} {key : α → String} {l : List α} {i : String}
    (h : ∃ x ∈ l, key x = i) : (dictGet key l i).isSome = true := by
  induction l with
  | nil => simp at h
  | cons y ys ih =>
      rw [dictGet_cons]
      cases hy : dictGet key ys i with
      | some z => rfl
      | none =>
          obtain ⟨x, hx, hk⟩ := h
          rcases List.mem_cons.mp hx with rfl | hx'
          · simp [hk]
          · have := ih ⟨x, hx', hk⟩
            rw [hy] at this
            cases this

theorem mem_keysOf {α : Type} (key : α → String) (l : List α) (i : String) :
    i ∈ keysOf key l ↔ ∃ x ∈ l, key x = i := by
  simp [keysOf, List.mem_dedup, List.mem_map]

theorem nodup_keysOf {α : Type} (key : α → String) (l : List α) : (keysOf key l).Nodup :=
  List.nodup_dedup _

theorem bcount_append_single (l : List CEntry) (e : CEntry) (t i : String) :
    bcount (l ++ [e]) t i = bcount l t i + (if e.etype = t ∧ e.ident = i then 1 else 0) := by
  simp only [bcount, List.countP_append, List.countP_cons, List.countP_nil]
  by_cases h1 : e.etype = t <;> by_cases h2 : e.ident = i <;> simp [h1, h2]

theorem entCount_add (c : Comparison) (b : Bucket) (e : CEntry) (t i : String) :
    entCount (c.add b e) t i =
      entCount c t i + (if e.etype = t ∧ e.ident = i then 1 else 0) := by
  cases b <;> simp [Comparison.add, entCount, bcount_append_single] <;> omega

theorem entCount_empty (t i : String) : entCount {} t i = 0 := rfl

theorem entCount_mLocalOnlyStep (lms : List LMeter) (c : Comparison) (j t i : String) :
    entCount (mLocalOnlyStep lms c j) t i =
      entCount c t i + (if "meter" = t ∧ j = i then 1 else 0) := by
  simp [mLocalOnlyStep, entCount_add]

theorem entCount_mServerOnlyStep (sms : List SMeter) (c : Comparison) (j t i : String) :
    entCount (mServerOnlyStep sms c j) t i =
      entCount c t i + (if "meter" = t ∧ j = i then 1 else 0) := by
  simp [mServerOnlyStep, entCount_add]

theorem entCount_rLocalOnlyStep (lrs : List LReading) (c : Comparison) (j t i : String) :
    entCount (rLocalOnlyStep lrs c j) t i =
      entCount c t i + (if "reading" = t ∧ j = i then 1 else 0) := by
  simp [rLocalOnlyStep, entCount_add]

theorem entCount_rServerOnlyStep (srs : List SReading) (c : Comparison) (j t i : String) :
    entCount (rServerOnlyStep srs c j) t i =
      entCount c t i + (if "reading" = t ∧ j = i then 1 else 0) := by
  simp [rServerOnlyStep, entCount_add]

theorem entCount_mCommonStep (lms : List LMeter) (sms : List SMeter) (c : Comparison)
    (j t i : String) :
    entCount (mCommonStep lms sms c j) t i =
      entCount c t i +
        (if "meter" = t ∧ j = i ∧ mrCommonAdds lms sms j = true then 1 else 0) := by
  have hm : mrCommonAdds lms sms j =
      (match dictGet (fun m => m.id) lms j, dictGet (fun m => m.id) sms j with
       | some lm, some sm => (localMeterTs lm).isSome && (serverMeterTs sm).isSome
       | _, _ => false) := rfl
  unfold mCommonStep
  rw [hm]
  cases h1 : dictGet (fun m => m.id) lms j with
  | none => simp
  | some lm =>
      cases h2 : dictGet (fun m => m.id) sms j with
      | none => simp
      | some sm =>
          cases h3 : localMeterTs lm with
          | none => simp [h3]
          | some lu =>
              cases h4 : serverMeterTs sm with
              | none => simp [h3, h4]
              | some su =>
                  simp only [h3, h4, Option.isSome_some, Bool.and_self, and_true]
                  split_ifs <;> simp_all [entCount_add]

theorem entCount_rCommonStep (lrs : List LReading) (srs : List SReading) (c : Comparison)
    (j t i : String) :
    entCount (rCommonStep lrs srs c j) t i =
      entCount c t i +
        (if "reading" = t ∧ j = i ∧ rdCommonAdds lrs srs j = true then 1 else 0) := by
  unfold rCommonStep rdCommonAdds
  cases h1 : dictGet lrKey lrs j with
  | none => simp [h1]
  | some lr =>
      cases h2 : dictGet srKey srs j with
      | none => simp [h1, h2]
      | some sr =>
          simp only [h1, h2, Option.isSome_some, Bool.and_self, and_true]
          split_ifs <;> simp_all [entCount_add]

theorem entCount_foldl {t i : String} (f : Comparison → String → Comparison)
    (d : String → Nat) (hf : ∀ c j, entCount (f c j) t i = entCount c t i + d j) :
    ∀ (xs : List String) (c : Comparison),
      entCount (xs.foldl f c) t i = entCount c t i + (xs.map d).sum := by
  intro xs
  induction xs with
  | nil => intro c; simp
  | cons x xs ih =>
      intro c
      rw [List.foldl_cons, ih, hf]
      simp [Nat.add_assoc]

theorem sum_map_indicator (xs : List String) (hnd : xs.Nodup) (i : String)
    (d : String → Nat) (h0 : ∀ j, j ≠ i → d j = 0) :
    (xs.map d).sum = if i ∈ xs then d i else 0 := by
  induction xs with
  | nil => simp
  | cons x xs ih =>
      obtain ⟨hx, hxs⟩ := List.nodup_cons.mp hnd
      rw [List.map_cons, List.sum_cons, ih hxs]
      by_cases hxi : x = i
      · subst hxi
        simp [hx]
      · have hd := h0 x hxi
        have hne : i ≠ x := fun h => hxi h.symm
        simp [hd, List.mem_cons, hne]

theorem entCount_compare_meters (lms : List LMeter) (sms : List SMeter) (c : Comparison)
    (i : String) :
    entCount (compare_meters lms sms c) "meter" i =
      entCount c "meter" i +
        (if i ∈ (keysOf (fun m : LMeter => m.id) lms).filter
            (fun j => !((keysOf (fun m : SMeter => m.id) sms).contains j)) then 1 else 0) +
        (if i ∈ (keysOf (fun m : SMeter => m.id) sms).filter
            (fun j => !((keysOf (fun m : LMeter => m.id) lms).contains j)) then 1 else 0) +
        (if i ∈ (keysOf (fun m : LMeter => m.id) lms).filter
            (fun j => (keysOf (fun m : SMeter => m.id) sms).contains j) then
          (if mrCommonAdds lms sms i = true then 1 else 0) else 0) := by
  simp only [compare_meters]
  rw [entCount_foldl (mCommonStep lms sms)
      (fun j => if "meter" = "meter" ∧ j = i ∧ mrCommonAdds lms sms j = true then 1 else 0)
      (fun c j => entCount_mCommonStep lms sms c j "meter" i)]
  rw [entCount_foldl (mServerOnlyStep sms)
      (fun j => if "meter" = "meter" ∧ j = i then 1 else 0)
      (fun c j => entCount_mServerOnlyStep sms c j "meter" i)]
  rw [entCount_foldl (mLocalOnlyStep lms)
      (fun j => if "meter" = "meter" ∧ j = i then 1 else 0)
      (fun c j => entCount_mLocalOnlyStep lms c j "meter" i)]
  rw [sum_map_indicator _ (List.Nodup.filter _ (nodup_keysOf _ lms)) i _
      (fun j hj => by simp [hj]),
    sum_map_indicator _ (List.Nodup.filter _ (nodup_keysOf _ sms)) i _
      (fun j hj => by simp [hj]),
    sum_map_indicator _ (List.Nodup.filter _ (nodup_keysOf _ lms)) i _
      (fun j hj => by simp [hj])]
  simp only [eq_self_iff_true, true_and, if_true]

theorem entCount_compare_meters_reading (lms : List LMeter) (sms : List SMeter)
    (c : Comparison) (k : String) :
    entCount (compare_meters lms sms c) "reading" k = entCount c "reading" k := by
  simp only [compare_meters]
  rw [entCount_foldl (mCommonStep lms sms) (fun _ => 0)
      (fun c j => by rw [entCount_mCommonStep lms sms c j "reading" k]; simp)]
  rw [entCount_foldl (mServerOnlyStep sms) (fun _ => 0)
      (fun c j => by rw [entCount_mServerOnlyStep sms c j "reading" k]; simp)]
  rw [entCount_foldl (mLocalOnlyStep lms) (fun _ => 0)
      (fun c j => by rw [entCount_mLocalOnlyStep lms c j "reading" k]; simp)]
  simp

theorem entCount_compare_readings (lrs : List LReading) (srs : List SReading)
    (c : Comparison) (k : String) :
    entCount (compare_readings lrs srs c) "reading" k =
      entCount c "reading" k +
        (if k ∈ (keysOf lrKey lrs).filter
            (fun j => !((keysOf srKey srs).contains j)) then 1 else 0) +
        (if k ∈ (keysOf srKey srs).filter
            (fun j => !((keysOf lrKey lrs).contains j)) then 1 else 0) +
        (if k ∈ (keysOf lrKey lrs).filter
            (fun j => (keysOf srKey srs).contains j) then
          (if rdCommonAdds lrs srs k = true then 1 else 0) else 0) := by
  simp only [compare_readings]
  rw [entCount_foldl (rCommonStep lrs srs)
      (fun j => if "reading" = "reading" ∧ j = k ∧ rdCommonAdds lrs srs j = true then 1 else 0)
      (fun c j => entCount_rCommonStep lrs srs c j "reading" k)]
  rw [entCount_foldl (rServerOnlyStep srs)
      (fun j => if "reading" = "reading" ∧ j = k then 1 else 0)
      (fun c j => entCount_rServerOnlyStep srs c j "reading" k)]
  rw [entCount_foldl (rLocalOnlyStep lrs)
      (fun j => if "reading" = "reading" ∧ j = k then 1 else 0)
      (fun c j => entCount_rLocalOnlyStep lrs c j "reading" k)]
  rw [sum_map_indicator _ (List.Nodup.filter _ (nodup_keysOf _ lrs)) k _
      (fun j hj => by simp [hj]),
    sum_map_indicator _ (List.Nodup.filter _ (nodup_keysOf _ srs)) k _
      (fun j hj => by simp [hj]),
    sum_map_indicator _ (List.Nodup.filter _ (nodup_keysOf _ lrs)) k _
      (fun j hj => by simp [hj])]
  simp only [eq_self_iff_true, true_and, if_true]

theorem entCount_compare_readings_meter (lrs : List LReading) (srs : List SReading)
    (c : Comparison) (i : String) :
    entCount (compare_readings lrs srs c) "meter" i = entCount c "meter" i := by
  simp only [compare_readings]
  rw [entCount_foldl (rCommonStep lrs srs) (fun _ => 0)
      (fun c j => by rw [entCount_rCommonStep lrs srs c j "meter" i]; simp)]
  rw [entCount_foldl (rServerOnlyStep srs) (fun _ => 0)
      (fun c j => by rw [entCount_rServerOnlyStep srs c j "meter" i]; simp)]
  rw [entCount_foldl (rLocalOnlyStep lrs) (fun _ => 0)
      (fun c j => by rw [entCount_rLocalOnlyStep lrs c j "meter" i]; simp)]
  simp

/-! ## Claim theorems: reconciler -/

/-- C2 (amended): every reading key present on either side, and every
meter id present on exactly one side, appears in exactly one of the six
buckets; a meter id present on both sides appears in exactly one of the
six buckets when both timestamps parse (`mrCommonAdds`), and in no bucket
at all otherwise. -/
theorem compare_partition (lms : List LMeter) (sms : List SMeter) (lrs : List LReading)
    (srs : List SReading) :
    (∀ i, (∃ m ∈ lms, m.id = i) → ¬(∃ m ∈ sms, m.id = i) →
      entCount (compare_databases lms sms lrs srs) "meter" i = 1) ∧
    (∀ i, ¬(∃ m ∈ lms, m.id = i) → (∃ m ∈ sms, m.id = i) →
      entCount (compare_databases lms sms lrs srs) "meter" i = 1) ∧
    (∀ i, (∃ m ∈ lms, m.id = i) → (∃ m ∈ sms, m.id = i) →
      entCount (compare_databases lms sms lrs srs) "meter" i =
        (if mrCommonAdds lms sms i = true then 1 else 0)) ∧
    (∀ k, ((∃ r ∈ lrs, lrKey r = k) ∨ (∃ r ∈ srs, srKey r = k)) →
      entCount (compare_databases lms sms lrs srs) "reading" k = 1) := by
  have e1 : compare_databases lms sms lrs srs =
      compare_readings lrs srs (compare_meters lms sms {}) := rfl
  refine ⟨?_, ?_, ?_, ?_⟩
  · intro i hl hs
    rw [e1, entCount_compare_readings_meter, entCount_compare_meters, entCount_empty]
    have hl' : i ∈ keysOf (fun m : LMeter => m.id) lms := (mem_keysOf _ _ _).mpr hl
    have hs' : i ∉ keysOf (fun m : SMeter => m.id) sms :=
      fun hmm => hs ((mem_keysOf _ _ _).mp hmm)
    rw [if_pos (List.mem_filter.mpr ⟨hl', by simp [hs']⟩),
      if_neg (fun hmm => hs' (List.mem_filter.mp hmm).1),
      if_neg (fun hmm => hs' (by simpa using (List.mem_filter.mp hmm).2))]
  · intro i hl hs
    rw [e1, entCount_compare_readings_meter, entCount_compare_meters, entCount_empty]
    have hs' : i ∈ keysOf (fun m : SMeter => m.id) sms := (mem_keysOf _ _ _).mpr hs
    have hl' : i ∉ keysOf (fun m : LMeter => m.id) lms :=
      fun hmm => hl ((mem_keysOf _ _ _).mp hmm)
    rw [if_neg (fun hmm => hl' (List.mem_filter.mp hmm).1),
      if_pos (List.mem_filter.mpr ⟨hs', by simp [hl']⟩),
      if_neg (fun hmm => hl' (List.mem_filter.mp hmm).1)]
  · intro i hl hs
    rw [e1, entCount_compare_readings_meter, entCount_compare_meters, entCount_empty]
    have hl' : i ∈ keysOf (fun m : LMeter => m.id) lms := (mem_keysOf _ _ _).mpr hl
    have hs' : i ∈ keysOf (fun m : SMeter => m.id) sms := (mem_keysOf _ _ _).mpr hs
    rw [if_neg (fun hmm => by
        have := (List.mem_filter.mp hmm).2
        simp [hs'] at this),
      if_neg (fun hmm => by
        have := (List.mem_filter.mp hmm).2
        simp [hl'] at this),
      if_pos (List.mem_filter.mpr ⟨hl', by simp [hs']⟩)]
    simp
  · intro k hk
    rw [e1, entCount_compare_readings, entCount_compare_meters_reading, entCount_empty]
    by_cases hL : ∃ r ∈ lrs, lrKey r = k
    · by_cases hS : ∃ r ∈ srs, srKey r = k
      · have hl' : k ∈ keysOf lrKey lrs := (mem_keysOf _ _ _).mpr hL
        have hs' : k ∈ keysOf srKey srs := (mem_keysOf _ _ _).mpr hS
        have hadds : rdCommonAdds lrs srs k = true := by
          unfold rdCommonAdds
          rw [dictGet_isSome_of_exists hL, dictGet_isSome_of_exists hS]
          rfl
        rw [if_neg (fun hmm => by
            have := (List.mem_filter.mp hmm).2
            simp [hs'] at this),
          if_neg (fun hmm => by
            have := (List.mem_filter.mp hmm).2
            simp [hl'] at this),
          if_pos (List.mem_filter.mpr ⟨hl', by simp [hs']⟩), hadds]
        simp
      · have hl' : k ∈ keysOf lrKey lrs := (mem_keysOf _ _ _).mpr hL
        have hs' : k ∉ keysOf srKey srs := fun hmm => hS ((mem_keysOf _ _ _).mp hmm)
        rw [if_pos (List.mem_filter.mpr ⟨hl', by simp [hs']⟩),
          if_neg (fun hmm => hs' (List.mem_filter.mp hmm).1),
          if_neg (fun hmm => hs' (by simpa using (List.mem_filter.mp hmm).2))]
    · by_cases hS : ∃ r ∈ srs, srKey r = k
      · have hs' : k ∈ keysOf srKey srs := (mem_keysOf _ _ _).mpr hS
        have hl' : k ∉ keysOf lrKey lrs := fun hmm => hL ((mem_keysOf _ _ _).mp hmm)
        rw [if_neg (fun hmm => hl' (List.mem_filter.mp hmm).1),
          if_pos (List.mem_filter.mpr ⟨hs', by simp [hl']⟩),
          if_neg (fun hmm => hl' (List.mem_filter.mp hmm).1)]
      · exact absurd hk (by simp [hL, hS])

/-- Counterexample for C2 as stated: a meter id present on both sides
whose timestamps never parse appears in none of the six buckets, so the
partition is not total. -/
theorem compare_partition_counterexample :
    (lmBadTs2 ∈ [lmBadTs2] ∧ lmBadTs2.id = "m2") ∧
    (smNoTs2 ∈ [smNoTs2] ∧ smNoTs2.id = "m2") ∧
    entCount (compare_databases [lmBadTs2] [smNoTs2] [] []) "meter" "m2" = 0 := by
  refine ⟨⟨List.mem_singleton_self _, rfl⟩, ⟨List.mem_singleton_self _, rfl⟩, ?_⟩
  with_unfolding_all decide

/-- Witness for C2 (amended): a local-only meter and a two-sided reading
key each land in exactly one bucket. -/
theorem compare_partition_witness :
    entCount (compare_databases [lmBadTs] [] [lrHundred] [srNear]) "meter" "m1" = 1 ∧
    entCount (compare_databases [lmBadTs] [] [lrHundred] [srNear]) "reading"
        "m1_2024-01-01" = 1 :=
  ⟨(compare_partition [lmBadTs] [] [lrHundred] [srNear]).1 "m1"
      ⟨lmBadTs, List.mem_singleton_self _, rfl⟩ (by simp),
   (compare_partition [lmBadTs] [] [lrHundred] [srNear]).2.2.2 "m1_2024-01-01"
      (Or.inl ⟨lrHundred, List.mem_singleton_self _, by with_unfolding_all rfl⟩)⟩

/-- C4 (amended): a common meter pair whose local or server timestamp
fails to parse is skipped entirely: it is appended to no classification
bucket (in particular it is not flagged for any sync action). -/
theorem unparseable_ts_omitted (lms : List LMeter) (sms : List SMeter) (lrs : List LReading)
    (srs : List SReading) (i : String) (lm : LMeter) (sm : SMeter)
    (hl : dictGet (fun m => m.id) lms i = some lm)
    (hs : dictGet (fun m => m.id) sms i = some sm)
    (hp : localMeterTs lm = none ∨ serverMeterTs sm = none) :
    entCount (compare_databases lms sms lrs srs) "meter" i = 0 := by
  have e1 : compare_databases lms sms lrs srs =
      compare_readings lrs srs (compare_meters lms sms {}) := rfl
  have hml := dictGet_mem hl
  have hms := dictGet_mem hs
  have hl' : i ∈ keysOf (fun m : LMeter => m.id) lms :=
    (mem_keysOf _ _ _).mpr ⟨lm, hml.1, hml.2⟩
  have hs' : i ∈ keysOf (fun m : SMeter => m.id) sms :=
    (mem_keysOf _ _ _).mpr ⟨sm, hms.1, hms.2⟩
  have hadds : mrCommonAdds lms sms i = false := by
    have hstep : mrCommonAdds lms sms i =
        ((localMeterTs lm).isSome && (serverMeterTs sm).isSome) := by
      unfold mrCommonAdds
      rw [hl, hs]
    rcases hp with hp | hp <;> rw [hstep, hp] <;> simp
  rw [e1, entCount_compare_readings_meter, entCount_compare_meters, entCount_empty]
  rw [if_neg (fun hmm => by
      have := (List.mem_filter.mp hmm).2
      simp [hs'] at this),
    if_neg (fun hmm => by
      have := (List.mem_filter.mp hmm).2
      simp [hl'] at this),
    if_pos (List.mem_filter.mpr ⟨hl', by simp [hs']⟩), hadds]
  simp

/-- Witness for C4 (amended), at the concrete unparseable pair. -/
theorem unparseable_ts_omitted_witness :
    entCount (compare_databases [lmBadTs] [smGoodTs] [] []) "meter" "m1" = 0 :=
  unparseable_ts_omitted [lmBadTs] [smGoodTs] [] [] "m1" lmBadTs smGoodTs
    (by with_unfolding_all rfl) (by with_unfolding_all rfl)
    (Or.inl (by with_unfolding_all decide))

/-- Counterexample for C4 as stated: the unparseable pair is *not* given
the in-sync classification — the `in_sync` bucket stays empty (the pair is
classified nowhere). -/
theorem unparseable_ts_counterexample :
    localMeterTs lmBadTs = none ∧ (serverMeterTs smGoodTs).isSome = true ∧
    lmBadTs.id = smGoodTs.id ∧
    (compare_databases [lmBadTs] [smGoodTs] [] []).in_sync = [] := by
  with_unfolding_all decide

/-! ## Bucket-membership lemmas for the conflict-tolerance claim -/

theorem mem_bucket_add_self (c : Comparison) (b : Bucket) (e : CEntry) :
    e ∈ (c.add b e).bucket b := by
  cases b <;> simp [Comparison.add, Comparison.bucket]

theorem mem_bucket_add (c : Comparison) (b b' : Bucket) (e x : CEntry)
    (h : x ∈ c.bucket b') : x ∈ (c.add b e).bucket b' := by
  cases b <;> cases b' <;>
    simp only [Comparison.add, Comparison.bucket, List.mem_append] at h ⊢ <;>
    tauto

theorem mem_bucket_foldl {β : Type} (f : Comparison → β → Comparison)
    (hmono : ∀ c j b x, x ∈ c.bucket b → x ∈ (f c j).bucket b)
    (xs : List β) (c : Comparison) (b : Bucket) (x : CEntry) (h : x ∈ c.bucket b) :
    x ∈ (xs.foldl f c).bucket b := by
  induction xs generalizing c with
  | nil => simpa using h
  | cons y ys ih => exact ih (f c y) (hmono c y b x h)

theorem mem_bucket_foldl_of_step (f : Comparison → String → Comparison)
    (hmono : ∀ c j b x, x ∈ c.bucket b → x ∈ (f c j).bucket b)
    (xs : List String) (j : String) (hj : j ∈ xs) (b : Bucket) (e : CEntry)
    (hstep : ∀ c, e ∈ (f c j).bucket b) (c : Comparison) :
    e ∈ (xs.foldl f c).bucket b := by
  induction xs generalizing c with
  | nil => cases hj
  | cons y ys ih =>
      rcases List.mem_cons.mp hj with rfl | hj'
      · exact mem_bucket_foldl f hmono ys _ b e (hstep c)
      · exact ih hj' (f c y)

theorem rCommonStep_eq_of_none_left {lrs : List LReading} (srs : List SReading)
    {j : String} (h : dictGet lrKey lrs j = none) (c : Comparison) :
    rCommonStep lrs srs c j = c := by
  unfold rCommonStep
  rw [h]

theorem rCommonStep_eq_of_none_right {lrs : List LReading} {srs : List SReading}
    {j : String} {lr : LReading} (hl : dictGet lrKey lrs j = some lr)
    (hs : dictGet srKey srs j = none) (c : Comparison) :
    rCommonStep lrs srs c j = c := by
  unfold rCommonStep
  rw [hl, hs]

theorem rCommonStep_eq_of_dicts {lrs : List LReading} {srs : List SReading} {k : String}
    {lr : LReading} {sr : SReading} (hl : dictGet lrKey lrs k = some lr)
    (hs : dictGet srKey srs k = some sr) (c : Comparison) :
    rCommonStep lrs srs c k =
      if 0.01 < |lr.reading_value - sr.reading_value| then
        c.add .conflictsB
          { etype := "reading", ident := k, local_data := some (.lr lr),
            server_data := some (.sr sr),
            conflict_reason := some (reasonStr lr.reading_value sr.reading_value) }
      else c.add .inSyncB { etype := "reading", ident := k } := by
  unfold rCommonStep
  rw [hl, hs]

theorem rCommonStep_mono (lrs : List LReading) (srs : List SReading) :
    ∀ c j b x, x ∈ c.bucket b → x ∈ (rCommonStep lrs srs c j).bucket b := by
  intro c j b x h
  cases h1 : dictGet lrKey lrs j with
  | none => rw [rCommonStep_eq_of_none_left srs h1]; exact h
  | some lr =>
      cases h2 : dictGet srKey srs j with
      | none => rw [rCommonStep_eq_of_none_right h1 h2]; exact h
      | some sr =>
          rw [rCommonStep_eq_of_dicts h1 h2]
          split_ifs <;> exact mem_bucket_add _ _ _ _ _ h

/-! ## Claim theorem: conflict tolerance -/

/-- C3: a reading key present on both sides is classified in-sync when the
absolute value difference is at most 0.01, and as a conflict recording
both readings and a reason string naming both values when it exceeds
0.01. -/
theorem reading_value_tolerance (lms : List LMeter) (sms : List SMeter)
    (lrs : List LReading) (srs : List SReading) (k : String) (lr : LReading)
    (sr : SReading) (hl : dictGet lrKey lrs k = some lr)
    (hs : dictGet srKey srs k = some sr) :
    (|lr.reading_value - sr.reading_value| ≤ 0.01 →
      ({ etype := "reading", ident := k } : CEntry)
        ∈ (compare_databases lms sms lrs srs).in_sync) ∧
    (0.01 < |lr.reading_value - sr.reading_value| →
      ({ etype := "reading", ident := k, local_data := some (.lr lr),
         server_data := some (.sr sr),
         conflict_reason := some (reasonStr lr.reading_value sr.reading_value) } : CEntry)
        ∈ (compare_databases lms sms lrs srs).conflicts) := by
  have hml := dictGet_mem hl
  have hms := dictGet_mem hs
  have hl' : k ∈ keysOf lrKey lrs := (mem_keysOf _ _ _).mpr ⟨lr, hml.1, hml.2⟩
  have hs' : k ∈ keysOf srKey srs := (mem_keysOf _ _ _).mpr ⟨sr, hms.1, hms.2⟩
  have hcommon : k ∈ (keysOf lrKey lrs).filter (fun j => (keysOf srKey srs).contains j) :=
    List.mem_filter.mpr ⟨hl', by simp [hs']⟩
  have e1 : compare_databases lms sms lrs srs =
      ((keysOf lrKey lrs).filter (fun j => (keysOf srKey srs).contains j)).foldl
        (rCommonStep lrs srs)
        (((keysOf srKey srs).filter (fun j => !((keysOf lrKey lrs).contains j))).foldl
          (rServerOnlyStep srs)
          (((keysOf lrKey lrs).filter (fun j => !((keysOf srKey srs).contains j))).foldl
            (rLocalOnlyStep lrs) (compare_meters lms sms {}))) := rfl
  constructor
  · intro hle
    have hstep : ∀ c : Comparison,
        ({ etype := "reading", ident := k } : CEntry)
          ∈ (rCommonStep lrs srs c k).bucket .inSyncB := by
      intro c
      rw [rCommonStep_eq_of_dicts hl hs, if_neg (not_lt.mpr hle)]
      exact mem_bucket_add_self c .inSyncB _
    rw [e1]
    exact mem_bucket_foldl_of_step (rCommonStep lrs srs) (rCommonStep_mono lrs srs) _ k
      hcommon .inSyncB _ hstep _
  · intro hlt
    have hstep : ∀ c : Comparison,
        ({ etype := "reading", ident := k, local_data := some (.lr lr),
           server_data := some (.sr sr),
           conflict_reason := some (reasonStr lr.reading_value sr.reading_value) } : CEntry)
          ∈ (rCommonStep lrs srs c k).bucket .conflictsB := by
      intro c
      rw [rCommonStep_eq_of_dicts hl hs, if_pos hlt]
      exact mem_bucket_add_self c .conflictsB _
    rw [e1]
    exact mem_bucket_foldl_of_step (rCommonStep lrs srs) (rCommonStep_mono lrs srs) _ k
      hcommon .conflictsB _ hstep _

/-- Witness for C3, at the spec's scenarios B and C: 100.00 vs 100.005 is
in sync, 100.00 vs 100.02 is a conflict carrying both values. -/
theorem reading_value_tolerance_witness :
    ({ etype := "reading", ident := "m1_2024-01-01" } : CEntry)
      ∈ (compare_databases [] [] [lrHundred] [srNear]).in_sync ∧
    ({ etype := "reading", ident := "m2_2024-01-01", local_data := some (.lr lrHundred2),
       server_data := some (.sr srFar),
       conflict_reason := some (reasonStr lrHundred2.reading_value srFar.reading_value) }
        : CEntry)
      ∈ (compare_databases [] [] [lrHundred2] [srFar]).conflicts :=
  ⟨(reading_value_tolerance [] [] [lrHundred] [srNear] "m1_2024-01-01" lrHundred srNear
      (by with_unfolding_all rfl) (by with_unfolding_all rfl)).1
      (by with_unfolding_all decide),
   (reading_value_tolerance [] [] [lrHundred2] [srFar] "m2_2024-01-01" lrHundred2 srFar
      (by with_unfolding_all rfl) (by with_unfolding_all rfl)).2
      (by with_unfolding_all decide)⟩

/-- Witness for C9: a batch with one bogus-typed item has
`success + failed` strictly below the item count. -/
theorem sync_unknown_type_skipped_witness :
    (sync_local_to_server okRemote [meterItem1, bogusItem]).success +
        (sync_local_to_server okRemote [meterItem1, bogusItem]).failed
      < ([meterItem1, bogusItem] : List CEntry).length ∧
    (sync_server_to_local okLocal [meterItem1, bogusItem]).success +
        (sync_server_to_local okLocal [meterItem1, bogusItem]).failed
      < ([meterItem1, bogusItem] : List CEntry).length :=
  (sync_unknown_type_skipped okRemote okLocal [meterItem1, bogusItem]).2.2
    ⟨bogusItem, by simp, by simp [bogusItem], by simp [bogusItem]⟩

/-! ## Lemmas about `remove_duplicate_meters` -/

theorem contains_append (A B : List String) (x : String) :
    (A ++ B).contains x = (A.contains x || B.contains x) := by
  induction A with
  | nil => simp
  | cons a as ih => simp [List.contains_cons, ih, Bool.or_assoc]

theorem filter_merge {α : Type} (key : α → String) (l : List α) (A B : List String) :
    (l.filter (fun x => !(A.contains (key x)))).filter (fun x => !(B.contains (key x))) =
      l.filter (fun x => !((A ++ B).contains (key x))) := by
  rw [List.filter_filter]
  apply List.filter_congr
  intro x _
  rw [contains_append]
  cases hA : A.contains (key x) <;> cases hB : B.contains (key x) <;> rfl

theorem removedIdsFor_append (db : LocalDB) (uid : String) (done : List (String × String))
    (k : String × String) :
    removedIdsFor db uid (done ++ [k]) =
      removedIdsFor db uid done ++ groupTailIds db uid k.1 k.2 := by
  simp [removedIdsFor]

theorem mem_removedIdsFor (db : LocalDB) (uid : String) (ks : List (String × String))
    (x : String) :
    x ∈ removedIdsFor db uid ks ↔ ∃ k ∈ ks, x ∈ groupTailIds db uid k.1 k.2 := by
  unfold removedIdsFor
  rw [List.mem_flatten]
  constructor
  · rintro ⟨l, hl, hx⟩
    obtain ⟨k, hk, rfl⟩ := List.mem_map.mp hl
    exact ⟨k, hk, hx⟩
  · rintro ⟨k, hk, hx⟩
    exact ⟨groupTailIds db uid k.1 k.2, List.mem_map.mpr ⟨k, hk, rfl⟩, hx⟩

theorem mem_groupRows (db : LocalDB) (uid h mn : String) (m : MeterRow) :
    m ∈ groupRows db uid h mn ↔
      m ∈ db.meters ∧ m.user_id = uid ∧ m.home_name = h ∧ m.meter_name = mn := by
  simp [groupRows, List.mem_filter, and_assoc]

theorem sortByCreated_perm (l : List MeterRow) : List.Perm (sortByCreated l) l :=
  List.perm_insertionSort _ l

theorem groupTailIds_exists {db : LocalDB} {uid h mn x : String}
    (hx : x ∈ groupTailIds db uid h mn) :
    ∃ m ∈ groupRows db uid h mn, m.id = x := by
  unfold groupTailIds at hx
  obtain ⟨m, hm, rfl⟩ := List.mem_map.mp hx
  have hm' : m ∈ sortByCreated (groupRows db uid h mn) :=
    (List.tail_sublist _).subset hm
  exact ⟨m, (sortByCreated_perm _).mem_iff.mp hm', rfl⟩

theorem meters_id_inj {db : LocalDB} (hids : (db.meters.map (fun m => m.id)).Nodup)
    {a b : MeterRow} (ha : a ∈ db.meters) (hb : b ∈ db.meters) (h : a.id = b.id) : a = b :=
  List.inj_on_of_nodup_map hids ha hb h

/-- A meter row whose id is scheduled for removal belongs to a duplicate
group and is not the kept row of that group. -/
theorem removed_row_characterization {db : LocalDB} {uid : String}
    (hids : (db.meters.map (fun m => m.id)).Nodup) {m : MeterRow} (hm : m ∈ db.meters)
    {ks : List (String × String)} (hmem : m.id ∈ removedIdsFor db uid ks) :
    (m.home_name, m.meter_name) ∈ ks ∧ m.user_id = uid ∧
      m.id ∈ groupTailIds db uid m.home_name m.meter_name := by
  obtain ⟨k, hk, hx⟩ := (mem_removedIdsFor db uid ks m.id).mp hmem
  obtain ⟨m', hm', hid⟩ := groupTailIds_exists hx
  have hfields := (mem_groupRows db uid k.1 k.2 m').mp hm'
  have heq : m' = m := meters_id_inj hids hfields.1 hm hid
  rw [heq] at hfields
  have h1 : m.home_name = k.1 := hfields.2.2.1
  have h2 : m.meter_name = k.2 := hfields.2.2.2
  refine ⟨?_, hfields.2.1, ?_⟩
  · rw [h1, h2]
    simpa using hk
  · rw [h1, h2]
    exact hx

theorem delGroup_eq (d : LocalDB) (uid h mn : String) :
    delGroup d uid h mn =
      ({ meters := d.meters.filter (fun m => !((groupTailIds d uid h mn).contains m.id)),
         readings := d.readings.filter
           (fun r => !((groupTailIds d uid h mn).contains r.meter_id)),
         sync_log := d.sync_log.filter
           (fun e => !((groupTailIds d uid h mn).contains e.record_id)) },
       (groupTailIds d uid h mn).length) := by
  unfold delGroup groupTailIds
  cases hs : sortByCreated (groupRows d uid h mn) with
  | nil => simp
  | cons a rest => simp

theorem nodup_dupKeys (db : LocalDB) (uid : String) : (dupKeys db uid).Nodup :=
  (List.nodup_dedup _).filter _

theorem mem_dupKeys (db : LocalDB) (uid h mn : String) :
    (h, mn) ∈ dupKeys db uid ↔
      (∃ m ∈ db.meters, m.user_id = uid ∧ m.home_name = h ∧ m.meter_name = mn) ∧
        1 < (groupRows db uid h mn).length := by
  simp only [dupKeys, List.mem_filter, List.mem_dedup, List.mem_map, decide_eq_true_eq]
  constructor
  · rintro ⟨⟨m, hm, hpair⟩, hlen⟩
    have h1 : m.home_name = h := congrArg Prod.fst hpair
    have h2 : m.meter_name = mn := congrArg Prod.snd hpair
    have hu : m.user_id = uid := by simpa using hm.2
    exact ⟨⟨m, hm.1, hu, h1, h2⟩, hlen⟩
  · rintro ⟨⟨m, hm, hu, h1, h2⟩, hlen⟩
    exact ⟨⟨m, ⟨hm, by simp [hu]⟩, by rw [h1, h2]⟩, hlen⟩

theorem groupRows_of_filtered (db : LocalDB) (uid : String)
    (hids : (db.meters.map (fun m => m.id)).Nodup)
    (done : List (String × String)) (k : String × String) (hkdone : k ∉ done)
    (d : LocalDB)
    (hm : d.meters = db.meters.filter
      (fun m => !((removedIdsFor db uid done).contains m.id))) :
    groupRows d uid k.1 k.2 = groupRows db uid k.1 k.2 := by
  unfold groupRows
  rw [hm, List.filter_filter]
  apply List.filter_congr
  intro m hmm
  by_cases hgp : (m.user_id == uid && m.home_name == k.1 && m.meter_name == k.2) = true
  · rw [hgp]
    simp only [Bool.true_and]
    have hgp' : (m.user_id = uid ∧ m.home_name = k.1) ∧ m.meter_name = k.2 := by
      simpa using hgp
    have hnot : m.id ∉ removedIdsFor db uid done := by
      intro hin
      have hc := removed_row_characterization hids hmm hin
      have hkey : (m.home_name, m.meter_name) = k := by
        rw [hgp'.1.2, hgp'.2]
      exact hkdone (hkey ▸ hc.1)
    simp [hnot]
  · simp only [Bool.not_eq_true] at hgp
    rw [hgp]
    simp

theorem runDel_invariant (db : LocalDB) (uid : String)
    (hids : (db.meters.map (fun m => m.id)).Nodup) :
    ∀ (ks done : List (String × String)), (done ++ ks).Nodup →
      ks.foldl (rdmStep uid)
        ({ meters := db.meters.filter
             (fun m => !((removedIdsFor db uid done).contains m.id)),
           readings := db.readings.filter
             (fun r => !((removedIdsFor db uid done).contains r.meter_id)),
           sync_log := db.sync_log.filter
             (fun e => !((removedIdsFor db uid done).contains e.record_id)) },
         (removedIdsFor db uid done).length) =
      ({ meters := db.meters.filter
           (fun m => !((removedIdsFor db uid (done ++ ks)).contains m.id)),
         readings := db.readings.filter
           (fun r => !((removedIdsFor db uid (done ++ ks)).contains r.meter_id)),
         sync_log := db.sync_log.filter
           (fun e => !((removedIdsFor db uid (done ++ ks)).contains e.record_id)) },
       (removedIdsFor db uid (done ++ ks)).length) := by
  intro ks
  induction ks with
  | nil => intro done hnd; simp
  | cons k ks' ih =>
      intro done hnd
      have hkdone : k ∉ done := by
        have hdisj := (List.nodup_append.mp hnd).2.2
        exact fun hkd => hdisj hkd (List.mem_cons_self _ _)
      have hgr : groupRows
          { meters := db.meters.filter
              (fun m => !((removedIdsFor db uid done).contains m.id)),
            readings := db.readings.filter
              (fun r => !((removedIdsFor db uid done).contains r.meter_id)),
            sync_log := db.sync_log.filter
              (fun e => !((removedIdsFor db uid done).contains e.record_id)) }
          uid k.1 k.2 = groupRows db uid k.1 k.2 :=
        groupRows_of_filtered db uid hids done k hkdone _ rfl
      have htail : groupTailIds
          { meters := db.meters.filter
              (fun m => !((removedIdsFor db uid done).contains m.id)),
            readings := db.readings.filter
              (fun r => !((removedIdsFor db uid done).contains r.meter_id)),
            sync_log := db.sync_log.filter
              (fun e => !((removedIdsFor db uid done).contains e.record_id)) }
          uid k.1 k.2 = groupTailIds db uid k.1 k.2 := by
        unfold groupTailIds
        rw [hgr]
      have hstep : rdmStep uid
          ({ meters := db.meters.filter
               (fun m => !((removedIdsFor db uid done).contains m.id)),
             readings := db.readings.filter
               (fun r => !((removedIdsFor db uid done).contains r.meter_id)),
             sync_log := db.sync_log.filter
               (fun e => !((removedIdsFor db uid done).contains e.record_id)) },
           (removedIdsFor db uid done).length) k =
          ({ meters := db.meters.filter
               (fun m => !((removedIdsFor db uid (done ++ [k])).contains m.id)),
             readings := db.readings.filter
               (fun r => !((removedIdsFor db uid (done ++ [k])).contains r.meter_id)),
             sync_log := db.sync_log.filter
               (fun e => !((removedIdsFor db uid (done ++ [k])).contains e.record_id)) },
           (removedIdsFor db uid (done ++ [k])).length) := by
        unfold rdmStep
        simp only [delGroup_eq, htail]
        rw [filter_merge (fun m : MeterRow => m.id),
          filter_merge (fun r : ReadingRow => r.meter_id),
          filter_merge (fun e : SyncLogRow => e.record_id)]
        simp [removedIdsFor_append]
      rw [List.foldl_cons, hstep]
      have hnd' : ((done ++ [k]) ++ ks').Nodup := by
        rw [List.append_assoc]
        exact hnd
      have hres := ih (done ++ [k]) hnd'
      rw [hres, List.append_assoc]
      rfl

/-- Closed form of `remove_duplicate_meters` under unique row ids. -/
theorem remove_duplicate_meters_eq (db : LocalDB) (uid : String)
    (hids : (db.meters.map (fun m => m.id)).Nodup) :
    remove_duplicate_meters db uid =
      ({ meters := db.meters.filter (fun m => !((removedIdsAll db uid).contains m.id)),
         readings := db.readings.filter
           (fun r => !((removedIdsAll db uid).contains r.meter_id)),
         sync_log := db.sync_log.filter
           (fun e => !((removedIdsAll db uid).contains e.record_id)) },
       (removedIdsAll db uid).length) := by
  have h := runDel_invariant db uid hids (dupKeys db uid) []
    (by simpa using nodup_dupKeys db uid)
  have hnil : removedIdsFor db uid [] = [] := rfl
  have hdb : ({ meters := db.meters.filter
                  (fun m => !((removedIdsFor db uid []).contains m.id)),
                readings := db.readings.filter
                  (fun r => !((removedIdsFor db uid []).contains r.meter_id)),
                sync_log := db.sync_log.filter
                  (fun e => !((removedIdsFor db uid []).contains e.record_id)) },
               (removedIdsFor db uid []).length) = ((db, 0) : LocalDB × Nat) := by
    simp [hnil]
  rw [show remove_duplicate_meters db uid =
      (dupKeys db uid).foldl (rdmStep uid) ((db, 0) : LocalDB × Nat) from rfl, ← hdb]
  exact h

theorem keeper_spec (db : LocalDB) (uid h mn : String)
    (hne : groupRows db uid h mn ≠ []) :
    ∃ kp rest, sortByCreated (groupRows db uid h mn) = kp :: rest ∧
      keeper db uid h mn = some kp ∧ kp ∈ groupRows db uid h mn ∧
      (∀ m ∈ groupRows db uid h mn, kp.created_at ≤ m.created_at) ∧
      groupTailIds db uid h mn = rest.map (fun m => m.id) := by
  cases hs : sortByCreated (groupRows db uid h mn) with
  | nil =>
      exfalso
      have := (sortByCreated_perm (groupRows db uid h mn)).length_eq
      rw [hs] at this
      exact hne (List.length_eq_zero.mp this.symm)
  | cons kp rest =>
      have hsort : List.Sorted (fun a b : MeterRow => a.created_at ≤ b.created_at)
          (sortByCreated (groupRows db uid h mn)) :=
        List.sorted_insertionSort _ _
      rw [hs] at hsort
      have hhead := (List.sorted_cons.mp hsort).1
      have hkmem : kp ∈ groupRows db uid h mn := by
        have : kp ∈ sortByCreated (groupRows db uid h mn) := by
          rw [hs]; exact List.mem_cons_self _ _
        exact (sortByCreated_perm _).mem_iff.mp this
      refine ⟨kp, rest, rfl, ?_, hkmem, ?_, ?_⟩
      · unfold keeper
        rw [hs]
        rfl
      · intro m hm
        have hm' : m ∈ sortByCreated (groupRows db uid h mn) :=
          (sortByCreated_perm _).mem_iff.mpr hm
        rw [hs] at hm'
        rcases List.mem_cons.mp hm' with rfl | hm''
        · exact le_refl _
        · exact hhead m hm''
      · unfold groupTailIds
        rw [hs]
        rfl

theorem nodup_map_id_sorted (db : LocalDB) (uid h mn : String)
    (hids : (db.meters.map (fun m => m.id)).Nodup) :
    ((sortByCreated (groupRows db uid h mn)).map (fun m => m.id)).Nodup := by
  have hperm : List.Perm ((sortByCreated (groupRows db uid h mn)).map (fun m => m.id))
      ((groupRows db uid h mn).map (fun m => m.id)) := (sortByCreated_perm _).map _
  have h2 : ((groupRows db uid h mn).map (fun m => m.id)).Nodup :=
    hids.sublist ((List.filter_sublist _).map _)
  exact hperm.nodup_iff.mpr h2

theorem nodup_groupTailIds (db : LocalDB) (uid h mn : String)
    (hids : (db.meters.map (fun m => m.id)).Nodup) :
    (groupTailIds db uid h mn).Nodup := by
  unfold groupTailIds
  exact (nodup_map_id_sorted db uid h mn hids).sublist ((List.tail_sublist _).map _)

theorem nodup_removedIdsAll (db : LocalDB) (uid : String)
    (hids : (db.meters.map (fun m => m.id)).Nodup) :
    (removedIdsAll db uid).Nodup := by
  unfold removedIdsAll removedIdsFor
  rw [List.nodup_flatten]
  constructor
  · intro l hl
    obtain ⟨k, _, rfl⟩ := List.mem_map.mp hl
    exact nodup_groupTailIds db uid k.1 k.2 hids
  · rw [List.pairwise_map]
    refine (nodup_dupKeys db uid).imp ?_
    intro k k' hne x hx hx'
    obtain ⟨m, hm, hid⟩ := groupTailIds_exists hx
    obtain ⟨m', hm', hid'⟩ := groupTailIds_exists hx'
    have hf := (mem_groupRows db uid k.1 k.2 m).mp hm
    have hf' := (mem_groupRows db uid k'.1 k'.2 m').mp hm'
    have heq : m = m' := meters_id_inj hids hf.1 hf'.1 (hid.trans hid'.symm)
    apply hne
    have e1 : k.1 = k'.1 := by rw [← hf.2.2.1, heq, hf'.2.2.1]
    have e2 : k.2 = k'.2 := by rw [← hf.2.2.2, heq, hf'.2.2.2]
    exact Prod.ext e1 e2

theorem removedIdsAll_length_eq_countP (db : LocalDB) (uid : String)
    (hids : (db.meters.map (fun m => m.id)).Nodup) :
    (removedIdsAll db uid).length =
      db.meters.countP (fun m => (removedIdsAll db uid).contains m.id) := by
  rw [List.countP_eq_length_filter]
  have hperm : List.Perm
      ((db.meters.filter (fun m => (removedIdsAll db uid).contains m.id)).map
        (fun m => m.id))
      (removedIdsAll db uid) := by
    refine (List.perm_ext_iff_of_nodup ?_ (nodup_removedIdsAll db uid hids)).mpr ?_
    · exact hids.sublist ((List.filter_sublist _).map _)
    · intro a
      constructor
      · intro ha
        obtain ⟨m, hm, rfl⟩ := List.mem_map.mp ha
        have := (List.mem_filter.mp hm).2
        simpa using this
      · intro ha
        obtain ⟨k, hk, hx⟩ := (mem_removedIdsFor db uid (dupKeys db uid) a).mp ha
        obtain ⟨m, hm, hid⟩ := groupTailIds_exists hx
        have hmdb := ((mem_groupRows db uid k.1 k.2 m).mp hm).1
        refine List.mem_map.mpr ⟨m, List.mem_filter.mpr ⟨hmdb, ?_⟩, hid⟩
        rw [hid]
        simpa using ha
  rw [← hperm.length_eq, List.length_map]

/-- The surviving rows of a `(home, meter)` group are the group's rows not
scheduled for removal. -/
theorem groupRows_result (db : LocalDB) (uid : String)
    (hids : (db.meters.map (fun m => m.id)).Nodup) (h mn : String) :
    groupRows (remove_duplicate_meters db uid).1 uid h mn =
      (groupRows db uid h mn).filter
        (fun m => !((removedIdsAll db uid).contains m.id)) := by
  unfold groupRows
  rw [remove_duplicate_meters_eq db uid hids]
  show (db.meters.filter (fun m => !((removedIdsAll db uid).contains m.id))).filter _ = _
  rw [List.filter_filter, List.filter_filter]
  exact List.filter_congr (fun m _ => Bool.and_comm _ _)

/-! ## Claim theorems: duplicate-meter removal -/

/-- C5 (amended): `remove_duplicate_meters` groups ALL of the owner's
meters — the active flag is never consulted — by (home, meter) label;
each group with more than one member keeps a row with the minimum
creation timestamp and loses the rest together with their readings and
their meter-id sync-log entries; other groups are untouched; the returned
count is the number of meter rows removed. -/
theorem remove_duplicate_meters_spec (db : LocalDB) (uid : String)
    (hids : (db.meters.map (fun m => m.id)).Nodup) :
    (remove_duplicate_meters db uid).1.meters =
        db.meters.filter (fun m => !((removedIdsAll db uid).contains m.id)) ∧
    (remove_duplicate_meters db uid).1.readings =
        db.readings.filter (fun r => !((removedIdsAll db uid).contains r.meter_id)) ∧
    (remove_duplicate_meters db uid).1.sync_log =
        db.sync_log.filter (fun e => !((removedIdsAll db uid).contains e.record_id)) ∧
    (remove_duplicate_meters db uid).2 =
        db.meters.countP (fun m => (removedIdsAll db uid).contains m.id) ∧
    (∀ h mn, 1 < (groupRows db uid h mn).length →
      ∃ kp, keeper db uid h mn = some kp ∧ kp ∈ groupRows db uid h mn ∧
        (∀ m ∈ groupRows db uid h mn, kp.created_at ≤ m.created_at) ∧
        groupRows (remove_duplicate_meters db uid).1 uid h mn = [kp]) ∧
    (∀ h mn, (groupRows db uid h mn).length ≤ 1 →
      groupRows (remove_duplicate_meters db uid).1 uid h mn = groupRows db uid h mn) := by
  have heq := remove_duplicate_meters_eq db uid hids
  refine ⟨by rw [heq], by rw [heq], by rw [heq], ?_, ?_, ?_⟩
  · rw [heq]
    exact removedIdsAll_length_eq_countP db uid hids
  · intro h mn hlen
    have hne : groupRows db uid h mn ≠ [] := by
      intro h0
      rw [h0] at hlen
      simp at hlen
    obtain ⟨kp, rest, hs, hk, hkmem, hmin, htail⟩ := keeper_spec db uid h mn hne
    have hfields := (mem_groupRows db uid h mn kp).mp hkmem
    have hkdup : (h, mn) ∈ dupKeys db uid :=
      (mem_dupKeys db uid h mn).mpr
        ⟨⟨kp, hfields.1, hfields.2.1, hfields.2.2.1, hfields.2.2.2⟩, hlen⟩
    refine ⟨kp, hk, hkmem, hmin, ?_⟩
    rw [groupRows_result db uid hids h mn]
    have hnotkp : kp.id ∉ removedIdsAll db uid := by
      intro hin
      have hc := removed_row_characterization hids hfields.1 hin
      have hx : kp.id ∈ groupTailIds db uid h mn := by
        rw [← hfields.2.2.1, ← hfields.2.2.2]
        exact hc.2.2
      rw [htail] at hx
      obtain ⟨r, hr, hridd⟩ := List.mem_map.mp hx
      have hrgrp : r ∈ groupRows db uid h mn := by
        have hm2 : r ∈ sortByCreated (groupRows db uid h mn) := by
          rw [hs]
          exact List.mem_cons_of_mem _ hr
        exact (sortByCreated_perm _).mem_iff.mp hm2
      have hrdb := ((mem_groupRows db uid h mn r).mp hrgrp).1
      have hre : r = kp := meters_id_inj hids hrdb hfields.1 hridd
      have hnd : (kp :: rest).Nodup := by
        have h1 := (nodup_map_id_sorted db uid h mn hids).of_map
        rwa [hs] at h1
      exact (List.nodup_cons.mp hnd).1 (hre ▸ hr)
    have hkpq : (!((removedIdsAll db uid).contains kp.id)) = true := by simp [hnotkp]
    have hrest : ∀ r ∈ rest, ¬((!((removedIdsAll db uid).contains r.id)) = true) := by
      intro r hr
      have hx : r.id ∈ groupTailIds db uid h mn := by
        rw [htail]
        exact List.mem_map.mpr ⟨r, hr, rfl⟩
      have hmem : r.id ∈ removedIdsAll db uid :=
        (mem_removedIdsFor db uid (dupKeys db uid) r.id).mpr ⟨(h, mn), hkdup, hx⟩
      simp [hmem]
    have hpf : List.Perm
        ((groupRows db uid h mn).filter (fun m => !((removedIdsAll db uid).contains m.id)))
        ((kp :: rest).filter (fun m => !((removedIdsAll db uid).contains m.id))) := by
      have hp := (sortByCreated_perm (groupRows db uid h mn)).symm.filter
        (fun m => !((removedIdsAll db uid).contains m.id))
      rwa [hs] at hp
    have hev : (kp :: rest).filter (fun m => !((removedIdsAll db uid).contains m.id))
        = [kp] := by
      rw [List.filter_cons, if_pos hkpq, List.filter_eq_nil_iff.mpr hrest]
    rw [hev] at hpf
    exact List.perm_singleton.mp hpf
  · intro h mn hlen
    rw [groupRows_result db uid hids h mn]
    apply List.filter_eq_self.mpr
    intro m hm
    have hf := (mem_groupRows db uid h mn m).mp hm
    have hnot : m.id ∉ removedIdsAll db uid := by
      intro hin
      have hc := removed_row_characterization hids hf.1 hin
      have hkdup : (h, mn) ∈ dupKeys db uid := by
        rw [← hf.2.2.1, ← hf.2.2.2]
        exact hc.1
      have hlt := ((mem_dupKeys db uid h mn).mp hkdup).2
      omega
    simp [hnot]

/-- Counterexample for C5 as stated: with an older inactive row carrying
the same labels, the only *active* meter of the group is deleted rather
than retained — `remove_duplicate_meters` never consults `is_active`. -/
theorem remove_duplicate_meters_counterexample :
    mRow1Inactive.is_active = false ∧ mRow2Active.is_active = true ∧
    mRow1Inactive.user_id = mRow2Active.user_id ∧
    mRow1Inactive.home_name = mRow2Active.home_name ∧
    mRow1Inactive.meter_name = mRow2Active.meter_name ∧
    (remove_duplicate_meters dbActiveDup "u1").2 = 1 ∧
    (remove_duplicate_meters dbActiveDup "u1").1.meters = [mRow1Inactive] := by
  with_unfolding_all decide

/-- Witness for C5 (amended), at a concrete duplicate state. -/
theorem remove_duplicate_meters_spec_witness :
    (remove_duplicate_meters dbActiveDup "u1").1.meters =
        dbActiveDup.meters.filter
          (fun m => !((removedIdsAll dbActiveDup "u1").contains m.id)) ∧
    (remove_duplicate_meters dbActiveDup "u1").2 =
        dbActiveDup.meters.countP
          (fun m => (removedIdsAll dbActiveDup "u1").contains m.id) :=
  ⟨(remove_duplicate_meters_spec dbActiveDup "u1" (by with_unfolding_all decide)).1,
   (remove_duplicate_meters_spec dbActiveDup "u1"
      (by with_unfolding_all decide)).2.2.2.1⟩

end VoltTrack
